import Mathlib

/-!
# Verification of the apprun-dedicated-provisioner reconciliation engine

Shallow embedding of the reconciliation core of the
`apprun-dedicated-provisioner` repository: the spec differ
(`compareVersion`, `compareEnv`, `compareExposedPorts` in
`provisioner/sync.go`), the planners (`CreatePlan`, `planASGChanges`,
`planLBChanges`), the apply executor (`Apply`, `applyASGChanges`,
`applyLBChanges`, `createApplication`, `updateApplication`,
`buildCreateVersionRequestWithBase`), the asynchronous-deletion wait
loop (`waitForASGDeletion` in `provisioner/autoscaling.go`) and the
secret version ledger (`state/state.go`).

Go data is modelled as follows: `int32`/`int64`/`int16` become `Int`
(no arithmetic near the bounds occurs in the embedded code, only
comparisons and copies); ogen's `Opt*` optionals become `GoOpt`
(a value plus a `set` flag, as in the generated Go code); ogen's
nullable values become `GoNil` (a `null` flag plus a zero-initialised
value, both of which the Go code reads); Go maps that the code builds
by insertion become association lists with overwrite-on-insert
semantics (`goInsert`/`goLookup`); gateway traffic becomes a trace of
`GatewayCall` values, with responses supplied by an environment record.
-/

namespace AppRun

/-- ogen optional value (`OptInt32`, `OptString`, ...): a payload plus a
`set` flag; `Get` returns the payload exactly when the flag is set. -/
structure GoOpt (α : Type) where
  value : α
  set : Bool
  deriving DecidableEq

/-- `Opt.Get() (v, ok)` of the generated Go client. -/
def GoOpt.get? {α : Type} (o : GoOpt α) : Option α :=
  if o.set then some o.value else none

/-- ogen nullable value (`NilString`, `OptNilPort`, ...): the Go code
reads both the `Null` flag (`IsNull`) and the zero-initialised `Value`
field, so both are kept. -/
structure GoNil (α : Type) where
  null : Bool
  value : α
  deriving DecidableEq

/-- `IsNull()` of the generated Go client. -/
def GoNil.isNull {α : Type} (o : GoNil α) : Bool := o.null

/-- Association-list read with the same result as a Go map lookup on a
map built by successive inserts: the latest binding for the key wins. -/
def goLookup {α : Type} : List (String × α) → String → Option α
  | [], _ => none
  | p :: rest, k =>
    match goLookup rest k with
    | some v => some v
    | none => if p.1 == k then some p.2 else none

/-- Go map insert: overwrite the binding if the key is present,
otherwise append it. -/
def goInsert {α : Type} (m : List (String × α)) (k : String) (v : α) :
    List (String × α) :=
  if (goLookup m k).isSome then
    m.map (fun p => if p.1 == k then (k, v) else p)
  else m ++ [(k, v)]

/-- Go map deletion: drop every binding of the key. -/
def goErase {α : Type} (m : List (String × α)) (k : String) :
    List (String × α) :=
  m.filter (fun p => p.1 != k)

/-- Build a Go map from a list of records keyed by `key`, mirroring the
`for ... { m[key(x)] = x }` loops of the source. -/
def goMapOfList {α : Type} (xs : List α) (key : α → String) :
    List (String × α) :=
  xs.foldl (fun m a => goInsert m (key a) a) []

/-- Integer-keyed Go map lookup (maps keyed by target port or
interface index), again with overwrite semantics. -/
def goLookupInt {α : Type} : List (Int × α) → Int → Option α
  | [], _ => none
  | p :: rest, k =>
    match goLookupInt rest k with
    | some v => some v
    | none => if p.1 == k then some p.2 else none

/-- Integer-keyed Go map insert. -/
def goInsertInt {α : Type} (m : List (Int × α)) (k : Int) (v : α) :
    List (Int × α) :=
  if (goLookupInt m k).isSome then
    m.map (fun p => if p.1 == k then (k, v) else p)
  else m ++ [(k, v)]

/-- Build an integer-keyed Go map from a list of records. -/
def goMapOfListInt {α : Type} (xs : List α) (key : α → Int) :
    List (Int × α) :=
  xs.foldl (fun m a => goInsertInt m (key a) a) []

/-! ## Secret version ledger (`state/state.go`) -/

/-- `state.ApplicationState`: per-application ledger entry. The
`secretEnvVersions` Go map is an association list kept key-unique by
the insert/erase operations. -/
structure ApplicationState where
  registryPasswordVersion : Option Int
  secretEnvVersions : List (String × Int)
  deriving DecidableEq

/-- `state.State`: the ledger, applications keyed by name. -/
structure State where
  version : Int
  applications : List (String × ApplicationState)
  deriving DecidableEq

/-- `state.NewState`. -/
def State.new : State := { version := 1, applications := [] }

/-- The ledger entry stored for an application (`s.Applications[appName]`). -/
def State.appEntry (s : State) (appName : String) : Option ApplicationState :=
  goLookup s.applications appName

/-- The secret-environment version map stored for an application
(empty when no entry exists). -/
def State.envVersions (s : State) (appName : String) : List (String × Int) :=
  match s.appEntry appName with
  | some app => app.secretEnvVersions
  | none => []

/-- `State.GetPasswordVersion`. -/
def State.getPasswordVersion (s : State) (appName : String) : Option Int :=
  match goLookup s.applications appName with
  | some app => app.registryPasswordVersion
  | none => none

/-- `State.GetSecretEnvVersion`. -/
def State.getSecretEnvVersion (s : State) (appName envKey : String) :
    Option Int :=
  match goLookup s.applications appName with
  | some app => goLookup app.secretEnvVersions envKey
  | none => none

/-- `State.ensureApp`: create the entry if it is absent. -/
def State.ensureApp (s : State) (appName : String) : State :=
  if (goLookup s.applications appName).isSome then s
  else { s with applications :=
          goInsert s.applications appName ⟨none, []⟩ }

/-- `State.cleanupApp`: delete the entry once both version-bearing
fields are empty. -/
def State.cleanupApp (s : State) (appName : String) : State :=
  match goLookup s.applications appName with
  | some app =>
      if app.registryPasswordVersion.isNone && app.secretEnvVersions.isEmpty then
        { s with applications := goErase s.applications appName }
      else s
  | none => s

/-- Mutate the entry of `appName` in place (the Go code writes through
the map's pointer; every binding of the key is updated alike). -/
def State.updateApp (s : State) (appName : String)
    (f : ApplicationState → ApplicationState) : State :=
  { s with applications :=
      s.applications.map (fun p => if p.1 == appName then (p.1, f p.2) else p) }

/-- `State.SetPasswordVersion`. -/
def State.setPasswordVersion (s : State) (appName : String)
    (version : Option Int) : State :=
  let s := s.ensureApp appName
  let s := s.updateApp appName
    (fun app => { app with registryPasswordVersion := version })
  s.cleanupApp appName

/-- `State.SetSecretEnvVersion`. -/
def State.setSecretEnvVersion (s : State) (appName envKey : String)
    (version : Option Int) : State :=
  let s := s.ensureApp appName
  let s := s.updateApp appName (fun app =>
    match version with
    | some v => { app with secretEnvVersions := goInsert app.secretEnvVersions envKey v }
    | none => { app with secretEnvVersions := goErase app.secretEnvVersions envKey })
  s.cleanupApp appName

/-- The pruning rule `cleanupApp` applies to an entry. -/
def pruneEntry : Option ApplicationState → Option ApplicationState
  | some a =>
    if a.registryPasswordVersion.isNone && a.secretEnvVersions.isEmpty
    then none else some a
  | none => none

/-! ## Data model: desired configuration (`config/config.go`) -/

/-- `config.HealthCheckConfig`. -/
structure HealthCheckConfig where
  path : String
  intervalSeconds : Int
  timeoutSeconds : Int
  deriving DecidableEq

/-- `config.ExposedPortConfig`. -/
structure ExposedPortConfig where
  targetPort : Int
  loadBalancerPort : Option Int
  useLetsEncrypt : Bool
  host : List String
  healthCheck : Option HealthCheckConfig
  deriving DecidableEq

/-- `config.EnvVarConfig`. -/
structure EnvVarConfig where
  key : String
  value : Option String
  secret : Bool
  secretVersion : Option Int
  deriving DecidableEq

/-- `config.ApplicationSpec`. -/
structure ApplicationSpec where
  cpu : Int
  memory : Int
  scalingMode : String
  fixedScale : Option Int
  minScale : Option Int
  maxScale : Option Int
  scaleInThreshold : Option Int
  scaleOutThreshold : Option Int
  image : String
  cmd : List String
  registryUsername : Option String
  registryPassword : Option String
  registryPasswordVersion : Option Int
  exposedPorts : List ExposedPortConfig
  env : List EnvVarConfig
  deriving DecidableEq

/-- `config.ApplicationConfig`. -/
structure ApplicationConfig where
  name : String
  spec : ApplicationSpec
  deriving DecidableEq

/-! ## Data model: live API resources (generated `api` package, the
fields the embedded code reads) -/

/-- `api.HealthCheck`. -/
structure HealthCheck where
  path : String
  intervalSeconds : Int
  timeoutSeconds : Int
  deriving DecidableEq

/-- `api.ExposedPort` (used both in read responses and in
`CreateApplicationVersion` requests, as in the generated client). -/
structure ExposedPort where
  targetPort : Int
  loadBalancerPort : GoNil Int
  useLetsEncrypt : Bool
  host : List String
  healthCheck : GoNil HealthCheck
  deriving DecidableEq

/-- `api.ReadEnvironmentVariable`. -/
structure ReadEnvironmentVariable where
  key : String
  value : GoNil String
  secret : Bool
  deriving DecidableEq

/-- `api.ReadApplicationVersionDetail` (the fields the provisioner
reads). -/
structure ReadApplicationVersionDetail where
  version : Int
  image : String
  cpu : Int
  memory : Int
  scalingMode : String
  fixedScale : GoOpt Int
  minScale : GoOpt Int
  maxScale : GoOpt Int
  scaleInThreshold : GoOpt Int
  scaleOutThreshold : GoOpt Int
  cmd : List String
  registryUsername : GoNil String
  exposedPorts : List ExposedPort
  env : List ReadEnvironmentVariable
  deriving DecidableEq

/-! ## Spec differ (`provisioner/sync.go`) -/

/-- `stringSlicesEqual`. -/
def stringSlicesEqual (a b : List String) : Bool :=
  if a.length != b.length then false
  else (List.zip a b).all (fun p => p.1 == p.2)

/-- Go's `%v` rendering of a string slice (only used inside change
messages; the claims never depend on it). -/
def goShowStrings (xs : List String) : String :=
  "[" ++ String.intercalate " " xs ++ "]"

/-- `compareExposedPorts`: the per-desired-port body of the
"added and changed" loop. -/
def compareExposedPortEntry (currentByPort : List (Int × ExposedPort))
    (desiredPort : ExposedPortConfig) : List String :=
  match goLookupInt currentByPort desiredPort.targetPort with
  | none => ["ExposedPort add: targetPort=" ++ toString desiredPort.targetPort]
  | some currentPort =>
    let prfx := "ExposedPort[" ++ toString desiredPort.targetPort ++ "]"
    let currentHasLB := !currentPort.loadBalancerPort.isNull
    let currentLBPort : Int := if currentHasLB then currentPort.loadBalancerPort.value else 0
    let desiredHasLB := desiredPort.loadBalancerPort.isSome
    let desiredLBPort : Int := desiredPort.loadBalancerPort.getD 0
    (if currentHasLB && desiredHasLB && (currentLBPort != desiredLBPort) then
        [prfx ++ " LoadBalancerPort: " ++ toString currentLBPort ++ " -> " ++ toString desiredLBPort]
      else if currentHasLB && !desiredHasLB then
        [prfx ++ " LoadBalancerPort: " ++ toString currentLBPort ++ " -> (unset)"]
      else if !currentHasLB && desiredHasLB then
        [prfx ++ " LoadBalancerPort: (unset) -> " ++ toString desiredLBPort]
      else [])
    ++ (if currentPort.useLetsEncrypt != desiredPort.useLetsEncrypt then
        [prfx ++ " UseLetsEncrypt: " ++ toString currentPort.useLetsEncrypt ++ " -> " ++ toString desiredPort.useLetsEncrypt]
      else [])
    ++ (if !stringSlicesEqual currentPort.host desiredPort.host then
        [prfx ++ " Host: " ++ goShowStrings currentPort.host ++ " -> " ++ goShowStrings desiredPort.host]
      else [])
    ++ (let currentHasHC := !currentPort.healthCheck.isNull
        match desiredPort.healthCheck with
        | some desiredHC =>
          if currentHasHC then
            let currentHC := currentPort.healthCheck.value
            (if currentHC.path != desiredHC.path then
                [prfx ++ " HealthCheck.Path: " ++ currentHC.path ++ " -> " ++ desiredHC.path]
              else [])
            ++ (if currentHC.intervalSeconds != desiredHC.intervalSeconds then
                [prfx ++ " HealthCheck.IntervalSeconds: " ++ toString currentHC.intervalSeconds ++ " -> " ++ toString desiredHC.intervalSeconds]
              else [])
            ++ (if currentHC.timeoutSeconds != desiredHC.timeoutSeconds then
                [prfx ++ " HealthCheck.TimeoutSeconds: " ++ toString currentHC.timeoutSeconds ++ " -> " ++ toString desiredHC.timeoutSeconds]
              else [])
          else [prfx ++ " HealthCheck: (unset) -> (set)"]
        | none =>
          if currentHasHC then [prfx ++ " HealthCheck: (set) -> (unset)"]
          else [])

/-- `compareExposedPorts`. -/
def compareExposedPorts (current : List ExposedPort)
    (desired : List ExposedPortConfig) : List String :=
  let countChanges :=
    if current.length != desired.length then
      ["ExposedPorts count: " ++ toString current.length ++ " -> " ++ toString desired.length]
    else []
  let currentByPort := goMapOfListInt current (fun p => p.targetPort)
  let desiredByPort := goMapOfListInt desired (fun p => p.targetPort)
  countChanges
  ++ desired.flatMap (compareExposedPortEntry currentByPort)
  ++ (current.filter (fun c => (goLookupInt desiredByPort c.targetPort).isNone)).map
      (fun c => "ExposedPort remove: targetPort=" ++ toString c.targetPort)

/-- `compareEnv`: the per-desired-variable body of the "added and
changed" loop.  For a secret variable the change is decided purely from
the stored ledger version and the desired `secretVersion`; the values
are never read. -/
def compareEnvDesiredEntry (st : State) (appName : String)
    (currentByKey : List (String × ReadEnvironmentVariable))
    (desiredEnv : EnvVarConfig) : List String :=
  match goLookup currentByKey desiredEnv.key with
  | none =>
    if desiredEnv.secret then ["Env add: " ++ desiredEnv.key ++ " (secret)"]
    else match desiredEnv.value with
      | some v => ["Env add: " ++ desiredEnv.key ++ "=" ++ v]
      | none => ["Env add: " ++ desiredEnv.key]
  | some currentEnv =>
    if desiredEnv.secret then
      let storedVersion := st.getSecretEnvVersion appName desiredEnv.key
      match desiredEnv.secretVersion with
      | some d =>
        match storedVersion with
        | none => ["Env update: " ++ desiredEnv.key ++ " (secret, version: new -> " ++ toString d ++ ")"]
        | some s =>
          if s != d then
            ["Env update: " ++ desiredEnv.key ++ " (secret, version: " ++ toString s ++ " -> " ++ toString d ++ ")"]
          else []
      | none => []
    else
      let currentValue := if !currentEnv.value.isNull then currentEnv.value.value else ""
      let desiredValue := desiredEnv.value.getD ""
      if currentValue != desiredValue then
        ["Env update: " ++ desiredEnv.key ++ "=" ++ currentValue ++ " -> " ++ desiredValue]
      else []

/-- `compareEnv`. -/
def compareEnv (st : State) (appName : String)
    (current : List ReadEnvironmentVariable) (desired : List EnvVarConfig) :
    List String :=
  let currentByKey := goMapOfList current (fun e => e.key)
  let desiredByKey := goMapOfList desired (fun e => e.key)
  desired.flatMap (compareEnvDesiredEntry st appName currentByKey)
  ++ (current.filter (fun c => (goLookup desiredByKey c.key).isNone)).map
      (fun c =>
        if c.secret then "Env remove: " ++ c.key ++ " (secret)"
        else "Env remove: " ++ c.key)

/-- The registry-password-version block at the end of `compareVersion`:
decided purely from the ledger (`state` file), never from the secret
value. -/
def compareRegistryPasswordVersion (st : State) (appName : String)
    (desired : ApplicationSpec) : List String :=
  let storedVersion := st.getPasswordVersion appName
  match desired.registryPasswordVersion with
  | some d =>
    match storedVersion with
    | none => ["RegistryPasswordVersion: (new) -> " ++ toString d]
    | some s =>
      if s != d then ["RegistryPasswordVersion: " ++ toString s ++ " -> " ++ toString d]
      else []
  | none =>
    match storedVersion with
    | some s => ["RegistryPasswordVersion: " ++ toString s ++ " -> (removed)"]
    | none => []

/-- `compareVersion`: compares the latest live version against the
desired spec.  The image field is never inspected, and the
scale-in/scale-out thresholds are never inspected. -/
def compareVersion (st : State) (appName : String)
    (current : ReadApplicationVersionDetail) (desired : ApplicationSpec) :
    List String :=
  (if current.cpu != desired.cpu then
      ["CPU: " ++ toString current.cpu ++ " -> " ++ toString desired.cpu]
    else [])
  ++ (if current.memory != desired.memory then
      ["Memory: " ++ toString current.memory ++ " -> " ++ toString desired.memory]
    else [])
  ++ (if current.scalingMode != desired.scalingMode then
      ["ScalingMode: " ++ current.scalingMode ++ " -> " ++ desired.scalingMode]
    else [])
  ++ (if desired.scalingMode == "manual" then
      match desired.fixedScale with
      | some d =>
        match current.fixedScale.get? with
        | none => ["FixedScale: (unset) -> " ++ toString d]
        | some v => if v != d then ["FixedScale: " ++ toString v ++ " -> " ++ toString d] else []
      | none => []
    else [])
  ++ (if desired.scalingMode == "cpu" then
      (match desired.minScale with
      | some d =>
        match current.minScale.get? with
        | none => ["MinScale: (unset) -> " ++ toString d]
        | some v => if v != d then ["MinScale: " ++ toString v ++ " -> " ++ toString d] else []
      | none => [])
      ++ (match desired.maxScale with
      | some d =>
        match current.maxScale.get? with
        | none => ["MaxScale: (unset) -> " ++ toString d]
        | some v => if v != d then ["MaxScale: " ++ toString v ++ " -> " ++ toString d] else []
      | none => [])
    else [])
  ++ compareExposedPorts current.exposedPorts desired.exposedPorts
  ++ compareEnv st appName current.env desired.env
  ++ (if !stringSlicesEqual current.cmd desired.cmd then
      ["Cmd: " ++ goShowStrings current.cmd ++ " -> " ++ goShowStrings desired.cmd]
    else [])
  ++ (let serverHasRegistryUser := !current.registryUsername.isNull && (current.registryUsername.value != "")
      let desiredHasRegistryUser := match desired.registryUsername with
        | some u => u != ""
        | none => false
      let desiredUser := desired.registryUsername.getD ""
      if !serverHasRegistryUser && desiredHasRegistryUser then
        ["RegistryUsername: (unset) -> " ++ desiredUser]
      else if serverHasRegistryUser && !desiredHasRegistryUser then
        ["RegistryUsername: " ++ current.registryUsername.value ++ " -> (unset)"]
      else if serverHasRegistryUser && desiredHasRegistryUser
          && (current.registryUsername.value != desiredUser) then
        ["RegistryUsername: " ++ current.registryUsername.value ++ " -> " ++ desiredUser]
      else [])
  ++ compareRegistryPasswordVersion st appName desired

/-! ## Application planner (`CreatePlan` / `planUpdate` in
`provisioner/sync.go`) -/

/-- `provisioner.ActionType`. -/
inductive ActionType where
  | create
  | update
  | noop
  deriving DecidableEq

/-- `provisioner.PlannedAction`. -/
structure PlannedAction where
  applicationName : String
  action : ActionType
  changes : List String
  deriving DecidableEq

/-- `planUpdate`, given the already-fetched latest version of the
existing application (`getLatestVersion` result). -/
def planUpdateAction (st : State) (appCfg : ApplicationConfig)
    (latestVersion : Option ReadApplicationVersionDetail) : PlannedAction :=
  match latestVersion with
  | none =>
      { applicationName := appCfg.name
        action := .update
        changes := ["Create initial version (no versions exist)"] }
  | some latest =>
      let changes := compareVersion st appCfg.name latest appCfg.spec
      if changes.length > 0 then
        { applicationName := appCfg.name, action := .update, changes := changes }
      else
        { applicationName := appCfg.name, action := .noop, changes := [] }

/-- One step of `CreatePlan`'s loop over the configured applications:
append the planned action and mark the live application as claimed
(`delete(existingByName, ...)`). -/
def createPlanStep (st : State)
    (latest : String → Option ReadApplicationVersionDetail)
    (acc : List PlannedAction × List String) (appCfg : ApplicationConfig) :
    List PlannedAction × List String :=
  let (actions, names) := acc
  if names.contains appCfg.name then
    (actions ++ [planUpdateAction st appCfg (latest appCfg.name)],
     names.filter (fun n => n != appCfg.name))
  else
    (actions ++ [{ applicationName := appCfg.name
                   action := .create
                   changes := ["Create new application and version"] }],
     names)

/-- The planning core of `CreatePlan`: `existingNames` are the names of
the live applications (`listAllApplications`), `latest` supplies each
live application's fetched latest version; the second component is the
list of live application names warned about ("exists in AppRun but not
in config"), one warning per remaining name. -/
def createPlanActions (st : State)
    (latest : String → Option ReadApplicationVersionDetail)
    (existingNames : List String) (cfgApps : List ApplicationConfig) :
    List PlannedAction × List String :=
  cfgApps.foldl (createPlanStep st latest) ([], existingNames)

/-! ## Version-request builder (`buildCreateVersionRequestWithBase`) -/

/-- `api.RegistryPasswordAction`; `unset` is the Go zero value of the
string enum before the builder assigns it. -/
inductive RegistryPasswordAction where
  | unset
  | new
  | keep
  | remove
  deriving DecidableEq

/-- ogen optional-nullable value: `SetTo` marks it set and non-null,
`SetToNull` marks it set and null. -/
structure GoOptNil (α : Type) where
  set : Bool
  null : Bool
  value : α
  deriving DecidableEq

/-- `SetTo`. -/
def GoOptNil.setTo {α : Type} (v : α) : GoOptNil α := ⟨true, false, v⟩

/-- `api.CreateEnvironmentVariable`. -/
structure CreateEnvironmentVariable where
  key : String
  value : GoOpt String
  secret : Bool
  deriving DecidableEq

/-- `api.CreateApplicationVersion` (the request the provisioner
builds). -/
structure CreateApplicationVersion where
  image : String
  cpu : Int
  memory : Int
  scalingMode : String
  cmd : List String
  registryUsername : GoOptNil String
  registryPassword : GoOptNil String
  registryPasswordAction : RegistryPasswordAction
  fixedScale : GoOpt Int
  minScale : GoOpt Int
  maxScale : GoOpt Int
  scaleInThreshold : GoOpt Int
  scaleOutThreshold : GoOpt Int
  exposedPorts : List ExposedPort
  env : List CreateEnvironmentVariable
  deriving DecidableEq

/-- `&api.CreateApplicationVersion{}`: Go zero value of the request. -/
def CreateApplicationVersion.empty : CreateApplicationVersion :=
  { image := ""
    cpu := 0
    memory := 0
    scalingMode := ""
    cmd := []
    registryUsername := ⟨false, false, ""⟩
    registryPassword := ⟨false, false, ""⟩
    registryPasswordAction := .unset
    fixedScale := ⟨0, false⟩
    minScale := ⟨0, false⟩
    maxScale := ⟨0, false⟩
    scaleInThreshold := ⟨0, false⟩
    scaleOutThreshold := ⟨0, false⟩
    exposedPorts := []
    env := [] }

/-- `buildCreateVersionRequestWithBase`: builds the create-version
request, merging the desired spec with the existing latest version.
The image always comes from the base version when one exists. -/
def buildCreateVersionRequestWithBase (v : ApplicationSpec)
    (base : Option ReadApplicationVersionDetail) : CreateApplicationVersion :=
  let req := CreateApplicationVersion.empty
  let req := { req with image :=
    match base with
    | some b => b.image
    | none => v.image }
  let req := { req with cpu :=
    if v.cpu != 0 then v.cpu
    else match base with
      | some b => b.cpu
      | none => req.cpu }
  let req := { req with memory :=
    if v.memory != 0 then v.memory
    else match base with
      | some b => b.memory
      | none => req.memory }
  let req := { req with scalingMode :=
    if v.scalingMode != "" then v.scalingMode
    else match base with
      | some b => b.scalingMode
      | none => req.scalingMode }
  let req := { req with cmd :=
    if v.cmd.length > 0 then v.cmd
    else match base with
      | some b => b.cmd
      | none => req.cmd }
  let req :=
    match v.registryUsername with
    | some u =>
        { req with registryUsername := GoOptNil.setTo u
                   registryPasswordAction := .new }
    | none =>
      match base with
      | some b =>
        if b.registryUsername.value != "" then
          { req with registryUsername := GoOptNil.setTo b.registryUsername.value
                     registryPasswordAction := .keep }
        else
          { req with registryUsername := ⟨true, true, ""⟩
                     registryPasswordAction := .remove }
      | none =>
          { req with registryUsername := ⟨true, true, ""⟩
                     registryPasswordAction := .remove }
  let req :=
    match v.registryPassword with
    | some p =>
        { req with registryPassword := GoOptNil.setTo p
                   registryPasswordAction := .new }
    | none =>
      match base with
      | some b =>
        if !b.registryUsername.isNull then
          { req with registryPasswordAction := .keep }
        else
          { req with registryPassword := ⟨true, true, ""⟩ }
      | none =>
          { req with registryPassword := ⟨true, true, ""⟩ }
  let req := { req with fixedScale :=
    match v.fixedScale with
    | some s => ⟨s, true⟩
    | none =>
      match base with
      | some b => if b.fixedScale.set then b.fixedScale else req.fixedScale
      | none => req.fixedScale }
  let req := { req with minScale :=
    match v.minScale with
    | some s => ⟨s, true⟩
    | none =>
      match base with
      | some b => if b.minScale.set then b.minScale else req.minScale
      | none => req.minScale }
  let req := { req with maxScale :=
    match v.maxScale with
    | some s => ⟨s, true⟩
    | none =>
      match base with
      | some b => if b.maxScale.set then b.maxScale else req.maxScale
      | none => req.maxScale }
  let req := { req with scaleInThreshold :=
    match v.scaleInThreshold with
    | some s => ⟨s, true⟩
    | none =>
      match base with
      | some b => if b.scaleInThreshold.set then b.scaleInThreshold else req.scaleInThreshold
      | none => req.scaleInThreshold }
  let req := { req with scaleOutThreshold :=
    match v.scaleOutThreshold with
    | some s => ⟨s, true⟩
    | none =>
      match base with
      | some b => if b.scaleOutThreshold.set then b.scaleOutThreshold else req.scaleOutThreshold
      | none => req.scaleOutThreshold }
  let req := { req with exposedPorts :=
    (if v.exposedPorts.length > 0 then
      v.exposedPorts.map (fun (port : ExposedPortConfig) =>
        { targetPort := port.targetPort
          useLetsEncrypt := port.useLetsEncrypt
          host := port.host
          loadBalancerPort :=
            match port.loadBalancerPort with
            | some p => ⟨false, p⟩
            | none => ⟨true, 0⟩
          healthCheck :=
            match port.healthCheck with
            | some hc => ⟨false, { path := hc.path
                                   intervalSeconds := hc.intervalSeconds
                                   timeoutSeconds := hc.timeoutSeconds }⟩
            | none => ⟨true, { path := "", intervalSeconds := 0, timeoutSeconds := 0 }⟩ })
    else match base with
      | some b =>
        b.exposedPorts.map (fun (port : ExposedPort) =>
          { targetPort := port.targetPort
            useLetsEncrypt := port.useLetsEncrypt
            host := port.host
            loadBalancerPort := port.loadBalancerPort
            healthCheck := port.healthCheck })
      | none => req.exposedPorts) }
  let req := { req with env :=
    (if v.env.length > 0 then
      v.env.map (fun (e : EnvVarConfig) =>
        { key := e.key
          secret := e.secret
          value :=
            match e.value with
            | some val => ⟨val, true⟩
            | none => ⟨"", false⟩ })
    else match base with
      | some b =>
        b.env.map (fun (e : ReadEnvironmentVariable) =>
          { key := e.key
            secret := e.secret
            value :=
              if !e.secret && !e.value.isNull then ⟨e.value.value, true⟩
              else ⟨"", false⟩ })
      | none => req.env) }
  req

/-- `buildCreateVersionRequest` (new applications: no base). -/
def buildCreateVersionRequest (v : ApplicationSpec) : CreateApplicationVersion :=
  buildCreateVersionRequestWithBase v none

/-! ## Infrastructure data model and planners
(`provisioner/autoscaling.go`, both the AutoScalingGroup and the
LoadBalancer halves) -/

/-- `config.IpRangeConfig`. -/
structure IpRangeConfig where
  start : String
  stop : String
  deriving DecidableEq

/-- `api.IpRange` (IPv4 strings). -/
structure IpRange where
  start : String
  stop : String
  deriving DecidableEq

/-- `config.ASGInterfaceConfig`. -/
structure ASGInterfaceConfig where
  interfaceIndex : Int
  upstream : String
  ipPool : List IpRangeConfig
  netmaskLen : Option Int
  defaultGateway : Option String
  packetFilterID : Option String
  connectsToLB : Bool
  deriving DecidableEq

/-- `api.AutoScalingGroupNodeInterface`. -/
structure AutoScalingGroupNodeInterface where
  interfaceIndex : Int
  upstream : String
  connectsToLB : Bool
  ipPool : List IpRange
  netmaskLen : GoOpt Int
  defaultGateway : GoOpt String
  packetFilterID : GoOpt String
  deriving DecidableEq

/-- `config.AutoScalingGroupConfig`. -/
structure AutoScalingGroupConfig where
  name : String
  zone : String
  workerServiceClassPath : String
  minNodes : Int
  maxNodes : Int
  nameServers : List String
  interfaces : List ASGInterfaceConfig
  deriving DecidableEq

/-- `api.ReadAutoScalingGroupDetail` (the fields the provisioner
reads). -/
structure ReadAutoScalingGroupDetail where
  autoScalingGroupID : String
  name : String
  zone : String
  workerServiceClassPath : String
  minNodes : Int
  maxNodes : Int
  nameServers : List String
  interfaces : List AutoScalingGroupNodeInterface
  deriving DecidableEq

/-- `config.LBInterfaceConfig`. -/
structure LBInterfaceConfig where
  interfaceIndex : Int
  upstream : String
  ipPool : List IpRangeConfig
  netmaskLen : Option Int
  defaultGateway : Option String
  vip : Option String
  virtualRouterID : Option Int
  packetFilterID : Option String
  deriving DecidableEq

/-- `api.LoadBalancerInterface`. -/
structure LoadBalancerInterface where
  interfaceIndex : Int
  upstream : String
  ipPool : List IpRange
  netmaskLen : GoOpt Int
  defaultGateway : GoOpt String
  vip : GoOpt String
  virtualRouterID : GoOpt Int
  packetFilterID : GoOpt String
  deriving DecidableEq

/-- `config.LoadBalancerConfig`. -/
structure LoadBalancerConfig where
  name : String
  autoScalingGroupName : String
  serviceClassPath : String
  nameServers : List String
  interfaces : List LBInterfaceConfig
  deriving DecidableEq

/-- `api.ReadLoadBalancerDetail` (the fields the provisioner reads). -/
structure ReadLoadBalancerDetail where
  loadBalancerID : String
  name : String
  serviceClassPath : String
  nameServers : List String
  interfaces : List LoadBalancerInterface
  deriving DecidableEq

/-- `compareNameServers`. -/
def compareNameServers (current : List String) (desired : List String) : Bool :=
  if current.length != desired.length then false
  else (List.zip current desired).all (fun p => p.1 == p.2)

/-- `compareIPPools` (same body for the ASG and the LB variant). -/
def compareIPPools (current : List IpRange) (desired : List IpRangeConfig) : Bool :=
  if current.length != desired.length then false
  else (List.zip current desired).all
    (fun p => p.1.start == p.2.start && p.1.stop == p.2.stop)

/-- The per-index body of `compareASGInterfaces`' loop over the desired
interfaces. -/
def compareASGInterfaceEntry (currentByIdx : List (Int × AutoScalingGroupNodeInterface))
    (idx : Int) (desiredIface : ASGInterfaceConfig) : List String :=
  match goLookupInt currentByIdx idx with
  | none => ["Interface[" ++ toString idx ++ "]: new interface"]
  | some currentIface =>
    (if currentIface.upstream != desiredIface.upstream then
        ["Interface[" ++ toString idx ++ "].Upstream: " ++ currentIface.upstream ++ " -> " ++ desiredIface.upstream]
      else [])
    ++ (if currentIface.connectsToLB != desiredIface.connectsToLB then
        ["Interface[" ++ toString idx ++ "].ConnectsToLB: " ++ toString currentIface.connectsToLB ++ " -> " ++ toString desiredIface.connectsToLB]
      else [])
    ++ (let currentNetmask : Int := if currentIface.netmaskLen.set then currentIface.netmaskLen.value else 0
        let desiredNetmask : Int := desiredIface.netmaskLen.getD 0
        if currentNetmask != desiredNetmask then
          ["Interface[" ++ toString idx ++ "].NetmaskLen: " ++ toString currentNetmask ++ " -> " ++ toString desiredNetmask]
        else [])
    ++ (let currentGW := if currentIface.defaultGateway.set then currentIface.defaultGateway.value else ""
        let desiredGW := desiredIface.defaultGateway.getD ""
        if currentGW != desiredGW then
          ["Interface[" ++ toString idx ++ "].DefaultGateway: " ++ currentGW ++ " -> " ++ desiredGW]
        else [])
    ++ (let currentPF := if currentIface.packetFilterID.set then currentIface.packetFilterID.value else ""
        let desiredPF := desiredIface.packetFilterID.getD ""
        if currentPF != desiredPF then
          ["Interface[" ++ toString idx ++ "].PacketFilterID: " ++ currentPF ++ " -> " ++ desiredPF]
        else [])
    ++ (if !compareIPPools currentIface.ipPool desiredIface.ipPool then
        ["Interface[" ++ toString idx ++ "].IpPool: changed"]
      else [])

/-- `compareASGInterfaces`; the Go loop ranges over the desired-side
map, here its association list. -/
def compareASGInterfaces (current : List AutoScalingGroupNodeInterface)
    (desired : List ASGInterfaceConfig) : List String :=
  if current.length != desired.length then
    ["Interfaces count: " ++ toString current.length ++ " -> " ++ toString desired.length]
  else
    let currentByIdx := goMapOfListInt current (fun i => i.interfaceIndex)
    let desiredByIdx := goMapOfListInt desired (fun i => i.interfaceIndex)
    desiredByIdx.flatMap (fun p => compareASGInterfaceEntry currentByIdx p.1 p.2)

/-- `compareASG`. -/
def compareASG (current : ReadAutoScalingGroupDetail)
    (desired : AutoScalingGroupConfig) : List String :=
  (if current.zone != desired.zone then
      ["Zone: " ++ current.zone ++ " -> " ++ desired.zone]
    else [])
  ++ (if current.workerServiceClassPath != desired.workerServiceClassPath then
      ["WorkerServiceClassPath: " ++ current.workerServiceClassPath ++ " -> " ++ desired.workerServiceClassPath]
    else [])
  ++ (if current.minNodes != desired.minNodes then
      ["MinNodes: " ++ toString current.minNodes ++ " -> " ++ toString desired.minNodes]
    else [])
  ++ (if current.maxNodes != desired.maxNodes then
      ["MaxNodes: " ++ toString current.maxNodes ++ " -> " ++ toString desired.maxNodes]
    else [])
  ++ (if !compareNameServers current.nameServers desired.nameServers then
      ["NameServers: " ++ goShowStrings current.nameServers ++ " -> " ++ goShowStrings desired.nameServers]
    else [])
  ++ compareASGInterfaces current.interfaces desired.interfaces

/-- `describeASGConfig`. -/
def describeASGConfig (cfg : AutoScalingGroupConfig) : List String :=
  [ "Zone: " ++ cfg.zone
  , "WorkerServiceClassPath: " ++ cfg.workerServiceClassPath
  , "MinNodes: " ++ toString cfg.minNodes ++ ", MaxNodes: " ++ toString cfg.maxNodes
  , "NameServers: " ++ goShowStrings cfg.nameServers
  , "Interfaces: " ++ toString cfg.interfaces.length ++ " configured" ]

/-- `provisioner.ASGActionType`. -/
inductive ASGActionType where
  | create
  | delete
  | recreate
  | noop
  | skip
  deriving DecidableEq

/-- `provisioner.ASGAction`. -/
structure ASGAction where
  action : ASGActionType
  name : String
  changes : List String
  existingID : Option String
  deriving DecidableEq

/-- The per-desired-ASG body of `planASGChanges`' first loop. -/
def planASGDesiredEntry (currentByName : List (String × ReadAutoScalingGroupDetail))
    (desiredASG : AutoScalingGroupConfig) : ASGAction :=
  match goLookup currentByName desiredASG.name with
  | none =>
      { action := .create
        name := desiredASG.name
        changes := describeASGConfig desiredASG
        existingID := none }
  | some current =>
      let changes := compareASG current desiredASG
      if changes.length > 0 then
        { action := .recreate
          name := desiredASG.name
          changes := changes
          existingID := some current.autoScalingGroupID }
      else
        { action := .noop, name := desiredASG.name, changes := [], existingID := none }

/-- `planASGChanges`, given the already-listed live ASGs
(`listAllASGs` result).  Live ASGs not claimed by the YAML get a Skip
action ("skip instead of delete"). -/
def planASGChanges (currentASGs : List ReadAutoScalingGroupDetail)
    (desired : List AutoScalingGroupConfig) : List ASGAction :=
  let currentByName := goMapOfList currentASGs (fun a => a.name)
  let desiredNames := desired.map (fun d => d.name)
  let mainActions := desired.map (planASGDesiredEntry currentByName)
  let skipActions := (currentByName.filter
      (fun p => !desiredNames.contains p.1)).map (fun p =>
    { action := ASGActionType.skip
      name := p.1
      changes := ["not in YAML, skipping"]
      existingID := none })
  mainActions ++ skipActions

/-- The per-index body of `compareLBInterfaces`' loop over the desired
interfaces. -/
def compareLBInterfaceEntry (currentByIdx : List (Int × LoadBalancerInterface))
    (idx : Int) (desiredIface : LBInterfaceConfig) : List String :=
  match goLookupInt currentByIdx idx with
  | none => ["Interface[" ++ toString idx ++ "]: new interface"]
  | some currentIface =>
    (if currentIface.upstream != desiredIface.upstream then
        ["Interface[" ++ toString idx ++ "].Upstream: " ++ currentIface.upstream ++ " -> " ++ desiredIface.upstream]
      else [])
    ++ (let currentNetmask : Int := if currentIface.netmaskLen.set then currentIface.netmaskLen.value else 0
        let desiredNetmask : Int := desiredIface.netmaskLen.getD 0
        if currentNetmask != desiredNetmask then
          ["Interface[" ++ toString idx ++ "].NetmaskLen: " ++ toString currentNetmask ++ " -> " ++ toString desiredNetmask]
        else [])
    ++ (let currentGW := if currentIface.defaultGateway.set then currentIface.defaultGateway.value else ""
        let desiredGW := desiredIface.defaultGateway.getD ""
        if currentGW != desiredGW then
          ["Interface[" ++ toString idx ++ "].DefaultGateway: " ++ currentGW ++ " -> " ++ desiredGW]
        else [])
    ++ (let currentVip := if currentIface.vip.set then currentIface.vip.value else ""
        let desiredVip := desiredIface.vip.getD ""
        if currentVip != desiredVip then
          ["Interface[" ++ toString idx ++ "].Vip: " ++ currentVip ++ " -> " ++ desiredVip]
        else [])
    ++ (let currentVRID : Int := if currentIface.virtualRouterID.set then currentIface.virtualRouterID.value else 0
        let desiredVRID : Int := desiredIface.virtualRouterID.getD 0
        if currentVRID != desiredVRID then
          ["Interface[" ++ toString idx ++ "].VirtualRouterID: " ++ toString currentVRID ++ " -> " ++ toString desiredVRID]
        else [])
    ++ (let currentPF := if currentIface.packetFilterID.set then currentIface.packetFilterID.value else ""
        let desiredPF := desiredIface.packetFilterID.getD ""
        if currentPF != desiredPF then
          ["Interface[" ++ toString idx ++ "].PacketFilterID: " ++ currentPF ++ " -> " ++ desiredPF]
        else [])
    ++ (if !compareIPPools currentIface.ipPool desiredIface.ipPool then
        ["Interface[" ++ toString idx ++ "].IpPool: changed"]
      else [])

/-- `compareLBInterfaces`. -/
def compareLBInterfaces (current : List LoadBalancerInterface)
    (desired : List LBInterfaceConfig) : List String :=
  if current.length != desired.length then
    ["Interfaces count: " ++ toString current.length ++ " -> " ++ toString desired.length]
  else
    let currentByIdx := goMapOfListInt current (fun i => i.interfaceIndex)
    let desiredByIdx := goMapOfListInt desired (fun i => i.interfaceIndex)
    desiredByIdx.flatMap (fun p => compareLBInterfaceEntry currentByIdx p.1 p.2)

/-- `compareLB`. -/
def compareLB (current : ReadLoadBalancerDetail)
    (desired : LoadBalancerConfig) : List String :=
  (if current.serviceClassPath != desired.serviceClassPath then
      ["ServiceClassPath: " ++ current.serviceClassPath ++ " -> " ++ desired.serviceClassPath]
    else [])
  ++ (if !compareNameServers current.nameServers desired.nameServers then
      ["NameServers: " ++ goShowStrings current.nameServers ++ " -> " ++ goShowStrings desired.nameServers]
    else [])
  ++ compareLBInterfaces current.interfaces desired.interfaces

/-- `describeLBConfig`. -/
def describeLBConfig (cfg : LoadBalancerConfig) : List String :=
  [ "AutoScalingGroup: " ++ cfg.autoScalingGroupName
  , "ServiceClassPath: " ++ cfg.serviceClassPath
  , "NameServers: " ++ goShowStrings cfg.nameServers
  , "Interfaces: " ++ toString cfg.interfaces.length ++ " configured" ]

/-- `provisioner.LBActionType`.  Note the planner has no `skip`
variant for LoadBalancers: a live LB absent from the YAML is planned
for deletion. -/
inductive LBActionType where
  | create
  | delete
  | recreate
  | noop
  deriving DecidableEq

/-- `provisioner.LBAction`. -/
structure LBAction where
  action : LBActionType
  name : String
  asgName : String
  changes : List String
  existingID : Option String
  asgID : Option String
  deriving DecidableEq

/-- The per-desired-LoadBalancer body of `planLBChanges`' first loop. -/
def planLBDesiredEntry (asgNameToID : List (String × String))
    (currentLBs : List (String × List (String × ReadLoadBalancerDetail)))
    (desiredLB : LoadBalancerConfig) : LBAction :=
  match goLookup asgNameToID desiredLB.autoScalingGroupName with
  | none =>
      { action := .create
        name := desiredLB.name
        asgName := desiredLB.autoScalingGroupName
        changes := describeLBConfig desiredLB
        existingID := none
        asgID := none }
  | some asgID =>
      let asgLBs := (goLookup currentLBs desiredLB.autoScalingGroupName).getD []
      match goLookup asgLBs desiredLB.name with
      | none =>
          { action := .create
            name := desiredLB.name
            asgName := desiredLB.autoScalingGroupName
            changes := describeLBConfig desiredLB
            existingID := none
            asgID := some asgID }
      | some current =>
          let changes := compareLB current desiredLB
          if changes.length > 0 then
            { action := .recreate
              name := desiredLB.name
              asgName := desiredLB.autoScalingGroupName
              changes := changes
              existingID := some current.loadBalancerID
              asgID := some asgID }
          else
            { action := .noop
              name := desiredLB.name
              asgName := desiredLB.autoScalingGroupName
              changes := []
              existingID := none
              asgID := none }

/-- `planLBChanges`, with the per-ASG LoadBalancer listings supplied by
`lbsOf` (the `listAllLBs` results, keyed by ASG id).  The final loop
plans a Delete for every live LB that no desired entry claims. -/
def planLBChanges (lbsOf : String → List ReadLoadBalancerDetail)
    (desired : List LoadBalancerConfig)
    (currentASGs : List ReadAutoScalingGroupDetail) : List LBAction :=
  let asgNameToID := goMapOfList currentASGs (fun a => a.name) |>.map
    (fun p => (p.1, p.2.autoScalingGroupID))
  let currentLBs := currentASGs.foldl (fun m asg =>
    goInsert m asg.name (goMapOfList (lbsOf asg.autoScalingGroupID) (fun lb => lb.name))) []
  let desiredActions := desired.map (planLBDesiredEntry asgNameToID currentLBs)
  let deleteActions := currentLBs.flatMap (fun asgEntry =>
    let asgID := goLookup asgNameToID asgEntry.1
    (asgEntry.2.filter (fun lbEntry =>
        !(desired.any (fun d =>
          d.autoScalingGroupName == asgEntry.1 && d.name == lbEntry.1)))).map
      (fun lbEntry =>
        { action := LBActionType.delete
          name := lbEntry.1
          asgName := asgEntry.1
          changes := ["LB will be deleted"]
          existingID := some lbEntry.2.loadBalancerID
          asgID := asgID }))
  desiredActions ++ deleteActions

/-! ## Gateway calls and the apply executor -/

/-- One call issued to the remote gateway.  The generated client has no
in-place update operation for AutoScalingGroups or LoadBalancers
(`autoscaling.go`: "no update API"); the `updateASG`/`updateLB`
constructors exist only so that the absence of such calls is a
statable property of a trace. -/
inductive GatewayCall where
  | listApplications
  | listAppVersions (appName : String)
  | getAppVersion (appName : String) (version : Int)
  | createApp (appName : String)
  | createAppVersion (appName : String) (req : CreateApplicationVersion)
  | updateAppActiveVersion (appName : String) (version : Int)
  | deleteASG (name : String) (id : String)
  | createASG (name : String)
  | updateASG (name : String)
  | deleteLB (asgName lbName : String) (asgID lbID : String)
  | createLB (asgName lbName : String) (asgID : String)
  | updateLB (asgName lbName : String)
  deriving DecidableEq

/-- An in-place mutation call against an infrastructure resource
(AutoScalingGroup or LoadBalancer). -/
def GatewayCall.isInfraUpdate : GatewayCall → Bool
  | .updateASG _ => true
  | .updateLB _ _ => true
  | _ => false

/-- A deletion call against an infrastructure resource. -/
def GatewayCall.isInfraDelete : GatewayCall → Bool
  | .deleteASG _ _ => true
  | .deleteLB _ _ _ _ => true
  | _ => false

/-- A creation call against an infrastructure resource. -/
def GatewayCall.isInfraCreate : GatewayCall → Bool
  | .createASG _ => true
  | .createLB _ _ _ => true
  | _ => false

/-- The first loop of `applyASGChanges`: delete every ASG whose action
is Delete or Recreate, in list order; a Delete/Recreate action without
a recorded existing id is an error. -/
def asgDeletePass : List ASGAction → Except String (List GatewayCall)
  | [] => .ok []
  | action :: rest =>
    if action.action == .delete || action.action == .recreate then
      match action.existingID with
      | none => .error ("cannot delete ASG " ++ action.name ++ ": missing ID")
      | some id =>
        match asgDeletePass rest with
        | .error e => .error e
        | .ok t => .ok (GatewayCall.deleteASG action.name id :: t)
    else asgDeletePass rest

/-- The second loop of `applyASGChanges`: create every ASG whose action
is Create or Recreate; a missing desired config is an error. -/
def asgCreatePass (desiredByName : List (String × AutoScalingGroupConfig)) :
    List ASGAction → Except String (List GatewayCall)
  | [] => .ok []
  | action :: rest =>
    if action.action == .create || action.action == .recreate then
      match goLookup desiredByName action.name with
      | none => .error ("cannot create ASG " ++ action.name ++ ": config not found")
      | some _ =>
        match asgCreatePass desiredByName rest with
        | .error e => .error e
        | .ok t => .ok (GatewayCall.createASG action.name :: t)
    else asgCreatePass desiredByName rest

/-- `applyASGChanges`: the delete loop runs to completion before the
create loop starts. -/
def applyASGChanges (actions : List ASGAction)
    (desired : List AutoScalingGroupConfig) : Except String (List GatewayCall) :=
  let desiredByName := goMapOfList desired (fun c => c.name)
  match asgDeletePass actions with
  | .error e => .error e
  | .ok deletes =>
    match asgCreatePass desiredByName actions with
    | .error e => .error e
    | .ok creates => .ok (deletes ++ creates)

/-- The first loop of `applyLBChanges`: delete every LB whose action is
Delete or Recreate; a missing LB id or ASG id is an error. -/
def lbDeletePass : List LBAction → Except String (List GatewayCall)
  | [] => .ok []
  | action :: rest =>
    if action.action == .delete || action.action == .recreate then
      match action.existingID, action.asgID with
      | some lbID, some asgID =>
        match lbDeletePass rest with
        | .error e => .error e
        | .ok t => .ok (GatewayCall.deleteLB action.asgName action.name asgID lbID :: t)
      | _, _ => .error ("cannot delete LB " ++ action.name ++ ": missing ID")
    else lbDeletePass rest

/-- The second loop of `applyLBChanges`: create every LB whose action
is Create or Recreate, resolving the owning ASG id from the (possibly
refreshed) name-to-id map. -/
def lbCreatePass (desiredByKey : List (String × LoadBalancerConfig))
    (asgNameToID : List (String × String)) :
    List LBAction → Except String (List GatewayCall)
  | [] => .ok []
  | action :: rest =>
    if action.action == .create || action.action == .recreate then
      match goLookup desiredByKey (action.asgName ++ "/" ++ action.name) with
      | none => .error ("cannot create LB " ++ action.name ++ ": config not found")
      | some _ =>
        match goLookup asgNameToID action.asgName with
        | none => .error ("cannot create LB " ++ action.name ++ ": ASG " ++ action.asgName ++ " not found")
        | some asgID =>
          match lbCreatePass desiredByKey asgNameToID rest with
          | .error e => .error e
          | .ok t => .ok (GatewayCall.createLB action.asgName action.name asgID :: t)
    else lbCreatePass desiredByKey asgNameToID rest

/-- The `"asgName/lbName"`-keyed desired-config map of
`applyLBChanges`. -/
def lbDesiredByKey (desired : List LoadBalancerConfig) :
    List (String × LoadBalancerConfig) :=
  goMapOfList desired (fun c => c.autoScalingGroupName ++ "/" ++ c.name)

/-- `applyLBChanges`: the delete loop runs to completion before the
create loop starts. -/
def applyLBChanges (actions : List LBAction)
    (desired : List LoadBalancerConfig)
    (asgNameToID : List (String × String)) : Except String (List GatewayCall) :=
  match lbDeletePass actions with
  | .error e => .error e
  | .ok deletes =>
    match lbCreatePass (lbDesiredByKey desired) asgNameToID actions with
    | .error e => .error e
    | .ok creates => .ok (deletes ++ creates)

/-- Modelled from the spec: the apply-stage coordinator that sequences
the infrastructure stages is not among the provided source files (only
its per-kind passes, `applyASGChanges`/`applyLBChanges`, are).  Spec
§4.3 fixes the stage order: (1) delete LoadBalancers slated for Delete
or Recreate, (2) delete AutoScalingGroups slated for Delete or
Recreate, (3) create AutoScalingGroups slated for Create or Recreate,
(4) create LoadBalancers slated for Create or Recreate. -/
def applyInfraStages (asgActions : List ASGAction) (lbActions : List LBAction)
    (asgDesired : List AutoScalingGroupConfig)
    (lbDesired : List LoadBalancerConfig)
    (asgNameToID : List (String × String)) : Except String (List GatewayCall) :=
  match lbDeletePass lbActions with
  | .error e => .error e
  | .ok lbDeletes =>
    match asgDeletePass asgActions with
    | .error e => .error e
    | .ok asgDeletes =>
      match asgCreatePass (goMapOfList asgDesired (fun c => c.name)) asgActions with
      | .error e => .error e
      | .ok asgCreates =>
        match lbCreatePass (lbDesiredByKey lbDesired) asgNameToID lbActions with
        | .error e => .error e
        | .ok lbCreates => .ok (lbDeletes ++ asgDeletes ++ asgCreates ++ lbCreates)

/-! ## Asynchronous-deletion wait loop (`waitForASGDeletion`) -/

/-- Outcome of one `GetAutoScalingGroup` poll: success (the ASG still
exists), a security error, or any other error (typically a 404 after
deletion). -/
inductive ASGFetchResult where
  | ok
  | securityError
  | otherError
  deriving DecidableEq

/-- Result of the wait loop: deletion confirmed, aborted on a security
error, or timed out. -/
inductive WaitResult where
  | deleted
  | checkFailed
  | timedOut
  deriving DecidableEq

/-- The loop of `waitForASGDeletion` from poll index `k` on: the
elapsed time at the top of iteration `k` is `3 * k` seconds (one
3-second sleep per completed iteration), the ceiling is 5 minutes
(300 seconds), and the fetch result of iteration `k` is `fetch k`. -/
def waitForASGDeletionFrom (fetch : Nat → ASGFetchResult) (k : Nat) : WaitResult :=
  if _h : 3 * k > 300 then .timedOut
  else
    match fetch k with
    | .securityError => .checkFailed
    | .otherError => .deleted
    | .ok => waitForASGDeletionFrom fetch (k + 1)
termination_by 101 - k
decreasing_by
  omega

/-- `waitForASGDeletion`: poll until the fetch errors (treated as
deleted, except for security errors) or the 5-minute ceiling passes. -/
def waitForASGDeletion (fetch : Nat → ASGFetchResult) : WaitResult :=
  waitForASGDeletionFrom fetch 0

/-! ## Cursor pagination (`listAllApplications`, `getLatestVersion`,
`ListVersions`) -/

/-- A gateway listing modelled as the sequence of pages successive
cursor-following calls return; the last page carries no next cursor. -/
def drainPages {α : Type} : List (List α) → List α
  | [] => []
  | page :: rest => page ++ drainPages rest

/-- `listAllApplications` (and the version-listing loop of
`ListVersions`): follow the cursor chain until exhausted, concatenating
the pages. -/
def listAllApplications (pages : List (List String)) : List String :=
  drainPages pages

/-- The version-number computation of `getLatestVersion`: a single
`ListApplicationVersions` call (the first page only — the function
passes no cursor and never loops), then the running maximum starting
from the zero value. -/
def getLatestVersionNumber (pages : List (List Int)) : Option Int :=
  let versions := pages.headD []
  if versions.isEmpty then none
  else some (versions.foldl (fun acc v => if v > acc then v else acc) 0)

/-! ## Application apply executor (`Apply`, `createApplication`,
`updateApplication`) -/

/-- `provisioner.ApplyOptions`. -/
structure ApplyOptions where
  activate : Bool
  deriving DecidableEq

/-- Gateway responses and failures for an apply run: `fails` tells
whether a call errors, `latest` is each application's latest version
(the `getLatestVersion` result), `assigned` the version number the
gateway assigns to a newly created version. -/
structure ApplyEnv where
  fails : GatewayCall → Bool
  latest : String → Option ReadApplicationVersionDetail
  assigned : String → Int

/-- `createApplication`: create the application, create its first
version from the desired spec, and activate it only when requested.
Returns the calls issued (including a failing final call) and the
error, if any. -/
def createApplicationCalls (env : ApplyEnv) (appCfg : ApplicationConfig)
    (opts : ApplyOptions) : List GatewayCall × Option String :=
  let c1 := GatewayCall.createApp appCfg.name
  if env.fails c1 then ([c1], some "failed to create application")
  else
    let req := buildCreateVersionRequest appCfg.spec
    let c2 := GatewayCall.createAppVersion appCfg.name req
    if env.fails c2 then ([c1, c2], some "failed to create version")
    else if opts.activate then
      let c3 := GatewayCall.updateAppActiveVersion appCfg.name (env.assigned appCfg.name)
      if env.fails c3 then ([c1, c2, c3], some "failed to activate version")
      else ([c1, c2, c3], none)
    else ([c1, c2], none)

/-- `getLatestVersion` as issued during `updateApplication`: one list
call, then one get call when any version exists.  The outer `Option`
is an error; the inner one distinguishes "no versions". -/
def getLatestVersionCalls (env : ApplyEnv) (appName : String) :
    List GatewayCall × Option (Option ReadApplicationVersionDetail) :=
  let c1 := GatewayCall.listAppVersions appName
  if env.fails c1 then ([c1], none)
  else
    match env.latest appName with
    | none => ([c1], some none)
    | some d =>
      let c2 := GatewayCall.getAppVersion appName d.version
      if env.fails c2 then ([c1, c2], none)
      else ([c1, c2], some (some d))

/-- `updateApplication`: fetch the latest version, create a new version
merged with it (`buildCreateVersionRequestWithBase`), and activate it
only when requested. -/
def updateApplicationCalls (env : ApplyEnv) (appCfg : ApplicationConfig)
    (opts : ApplyOptions) : List GatewayCall × Option String :=
  let (getCalls, res) := getLatestVersionCalls env appCfg.name
  match res with
  | none => (getCalls, some "failed to get latest version")
  | some latestVersion =>
    let req := buildCreateVersionRequestWithBase appCfg.spec latestVersion
    let c2 := GatewayCall.createAppVersion appCfg.name req
    if env.fails c2 then (getCalls ++ [c2], some "failed to create version")
    else if opts.activate then
      let c3 := GatewayCall.updateAppActiveVersion appCfg.name (env.assigned appCfg.name)
      if env.fails c3 then (getCalls ++ [c2, c3], some "failed to activate version")
      else (getCalls ++ [c2, c3], none)
    else (getCalls ++ [c2], none)

/-- The ledger bookkeeping after a successful create action
(`Apply`'s `ActionCreate` branch). -/
def afterCreateState (st : State) (stateModified : Bool)
    (appCfg : ApplicationConfig) : State × Bool :=
  let (st, stateModified) :=
    match appCfg.spec.registryPasswordVersion with
    | some v => (st.setPasswordVersion appCfg.name (some v), true)
    | none => (st, stateModified)
  updateSecretEnvVersions st stateModified appCfg
where
  /-- `updateSecretEnvVersions`. -/
  updateSecretEnvVersions (st : State) (stateModified : Bool)
      (appCfg : ApplicationConfig) : State × Bool :=
    appCfg.spec.env.foldl (fun (acc : State × Bool) e =>
      let (st, modified) := acc
      if e.secret then
        match e.secretVersion with
        | some v =>
          let stored := st.getSecretEnvVersion appCfg.name e.key
          if stored != some v then
            (st.setSecretEnvVersion appCfg.name e.key (some v), true)
          else (st, modified)
        | none => (st, modified)
      else (st, modified)) (st, stateModified)

/-- The ledger bookkeeping after a successful update action
(`Apply`'s `ActionUpdate` branch). -/
def afterUpdateState (st : State) (stateModified : Bool)
    (appCfg : ApplicationConfig) : State × Bool :=
  let storedVersion := st.getPasswordVersion appCfg.name
  let (st, stateModified) :=
    match appCfg.spec.registryPasswordVersion with
    | some v =>
      if storedVersion != some v then
        (st.setPasswordVersion appCfg.name (some v), true)
      else (st, stateModified)
    | none =>
      match storedVersion with
      | some _ => (st.setPasswordVersion appCfg.name none, true)
      | none => (st, stateModified)
  afterCreateState.updateSecretEnvVersions st stateModified appCfg

/-- The action loop of `Apply`: actions whose application name is not
in the configuration are skipped (`continue`); create/update actions
issue their gateway calls and, on success, update the ledger; the
first failing action aborts the remainder. -/
def runApplyActions (env : ApplyEnv) (cfgByName : List (String × ApplicationConfig))
    (opts : ApplyOptions) :
    List PlannedAction → State → Bool →
      List GatewayCall × State × Bool × Option String
  | [], st, stateModified => ([], st, stateModified, none)
  | action :: rest, st, stateModified =>
    match goLookup cfgByName action.applicationName with
    | none => runApplyActions env cfgByName opts rest st stateModified
    | some appCfg =>
      match action.action with
      | .create =>
        let (calls, err) := createApplicationCalls env appCfg opts
        match err with
        | some e =>
          (calls, st, stateModified,
            some ("failed to create application " ++ action.applicationName ++ ": " ++ e))
        | none =>
          let (st, stateModified) := afterCreateState st stateModified appCfg
          let (restCalls, st, stateModified, err) :=
            runApplyActions env cfgByName opts rest st stateModified
          (calls ++ restCalls, st, stateModified, err)
      | .update =>
        let (calls, err) := updateApplicationCalls env appCfg opts
        match err with
        | some e =>
          (calls, st, stateModified,
            some ("failed to update application " ++ action.applicationName ++ ": " ++ e))
        | none =>
          let (st, stateModified) := afterUpdateState st stateModified appCfg
          let (restCalls, st, stateModified, err) :=
            runApplyActions env cfgByName opts rest st stateModified
          (calls ++ restCalls, st, stateModified, err)
      | .noop => runApplyActions env cfgByName opts rest st stateModified

/-- `Apply`: list the live applications, then run the plan's actions
in order against the configuration map.  Returns the issued calls, the
final ledger, whether the ledger changed, and the error, if any. -/
def applyPlan (env : ApplyEnv) (cfgApps : List ApplicationConfig)
    (actions : List PlannedAction) (st : State) (opts : ApplyOptions) :
    List GatewayCall × State × Bool × Option String :=
  if env.fails .listApplications then
    ([.listApplications], st, false, some "failed to list applications")
  else
    let cfgByName := goMapOfList cfgApps (fun c => c.name)
    let (calls, st, stateModified, err) :=
      runApplyActions env cfgByName opts actions st false
    (GatewayCall.listApplications :: calls, st, stateModified, err)

/-- The gateway-side active-version pointers, and the only call that
moves one: `UpdateApplication` with an active-version payload. -/
def applyCallToPointers (pointers : String → Option Int) :
    GatewayCall → String → Option Int
  | .updateAppActiveVersion name v => fun appName =>
      if appName == name then some v else pointers appName
  | _ => pointers

/-- Run a trace of calls over the active-version pointers. -/
def runCallsOnPointers (pointers : String → Option Int)
    (calls : List GatewayCall) : String → Option Int :=
  calls.foldl applyCallToPointers pointers

/-! ## Concrete fixtures used by witnesses and counterexamples -/

/-- A live latest version: manual scaling, image `nginx:1`. -/
def fixtureLatestVersion : ReadApplicationVersionDetail :=
  { version := 1
    image := "nginx:1"
    cpu := 500
    memory := 1024
    scalingMode := "manual"
    fixedScale := ⟨1, true⟩
    minScale := ⟨0, false⟩
    maxScale := ⟨0, false⟩
    scaleInThreshold := ⟨0, false⟩
    scaleOutThreshold := ⟨0, false⟩
    cmd := []
    registryUsername := ⟨true, ""⟩
    exposedPorts := []
    env := [] }

/-- A desired spec equal to `fixtureLatestVersion` everywhere the
planner compares, but with a different image (`nginx:2`). -/
def fixtureSpecNewImage : ApplicationSpec :=
  { cpu := 500
    memory := 1024
    scalingMode := "manual"
    fixedScale := some 1
    minScale := none
    maxScale := none
    scaleInThreshold := none
    scaleOutThreshold := none
    image := "nginx:2"
    cmd := []
    registryUsername := none
    registryPassword := none
    registryPasswordVersion := none
    exposedPorts := []
    env := [] }

/-- A live latest version in automatic (cpu) scaling mode with
thresholds 30/70. -/
def fixtureCpuVersion : ReadApplicationVersionDetail :=
  { version := 2
    image := "nginx:1"
    cpu := 500
    memory := 1024
    scalingMode := "cpu"
    fixedScale := ⟨0, false⟩
    minScale := ⟨1, true⟩
    maxScale := ⟨3, true⟩
    scaleInThreshold := ⟨30, true⟩
    scaleOutThreshold := ⟨70, true⟩
    cmd := []
    registryUsername := ⟨true, ""⟩
    exposedPorts := []
    env := [] }

/-- A desired spec in cpu mode equal to `fixtureCpuVersion` except for
both scaling thresholds (50/90 instead of 30/70). -/
def fixtureCpuSpecNewThresholds : ApplicationSpec :=
  { cpu := 500
    memory := 1024
    scalingMode := "cpu"
    fixedScale := none
    minScale := some 1
    maxScale := some 3
    scaleInThreshold := some 50
    scaleOutThreshold := some 90
    image := "nginx:1"
    cmd := []
    registryUsername := none
    registryPassword := none
    registryPasswordVersion := none
    exposedPorts := []
    env := [] }

/-- A ledger storing secret-env version 1 for key `API_KEY` of
application `web` (and no registry-password version). -/
def fixtureSecretState : State :=
  { version := 1, applications := [("web", ⟨none, [("API_KEY", 1)]⟩)] }

/-- The live environment: one secret variable `API_KEY` (the gateway
returns no value for it). -/
def fixtureCurrentSecretEnv : List ReadEnvironmentVariable :=
  [{ key := "API_KEY", value := ⟨true, ""⟩, secret := true }]

/-- The desired environment: `API_KEY` still secret but with no
`secretVersion` field. -/
def fixtureDesiredSecretEnvNoVersion : List EnvVarConfig :=
  [{ key := "API_KEY", value := none, secret := true, secretVersion := none }]

/-- A paged `ListApplicationVersions` response sequence for an
application with 31 versions: the first page (MaxItems 30) holds
versions 1..30, the second page holds version 31. -/
def fixtureVersionPages : List (List Int) :=
  [(List.range 30).map (fun i => (i : Int) + 1), [31]]

/-- A live AutoScalingGroup named `asg1`. -/
def fixtureASGDetail : ReadAutoScalingGroupDetail :=
  { autoScalingGroupID := "asg-id-1"
    name := "asg1"
    zone := "is1a"
    workerServiceClassPath := "wscp"
    minNodes := 1
    maxNodes := 2
    nameServers := []
    interfaces := [] }

/-- A live LoadBalancer named `lb1` (owned by `asg1` in the fixtures). -/
def fixtureLBDetail : ReadLoadBalancerDetail :=
  { loadBalancerID := "lb-id-1"
    name := "lb1"
    serviceClassPath := "scp"
    nameServers := []
    interfaces := [] }

/-- A deletion call for this specific LoadBalancer. -/
def GatewayCall.isDeleteLBOf (asgName lbName : String) : GatewayCall → Bool
  | .deleteLB a l _ _ => a == asgName && l == lbName
  | _ => false

/-- A deletion call for this specific AutoScalingGroup. -/
def GatewayCall.isDeleteASGOf (name : String) : GatewayCall → Bool
  | .deleteASG n _ => n == name
  | _ => false

/-- A creation call for this specific AutoScalingGroup. -/
def GatewayCall.isCreateASGOf (name : String) : GatewayCall → Bool
  | .createASG n => n == name
  | _ => false

/-- A creation call for this specific LoadBalancer. -/
def GatewayCall.isCreateLBOf (asgName lbName : String) : GatewayCall → Bool
  | .createLB a l _ => a == asgName && l == lbName
  | _ => false

/-- Some call satisfying `p` occurs in the trace strictly before some
call satisfying `q`. -/
def callBefore (t : List GatewayCall) (p q : GatewayCall → Bool) : Prop :=
  ∃ i j, i < j ∧ (∃ c, t.get? i = some c ∧ p c = true)
    ∧ (∃ c, t.get? j = some c ∧ q c = true)

/-- Desired config for ASG `asg1`. -/
def fixtureASGConfig : AutoScalingGroupConfig :=
  { name := "asg1"
    zone := "is1a"
    workerServiceClassPath := "wscp"
    minNodes := 1
    maxNodes := 2
    nameServers := []
    interfaces := [] }

/-- Desired config for LoadBalancer `lb1` owned by `asg1`. -/
def fixtureLBConfig : LoadBalancerConfig :=
  { name := "lb1"
    autoScalingGroupName := "asg1"
    serviceClassPath := "scp"
    nameServers := []
    interfaces := [] }

/-- A Recreate action for ASG `asg1`. -/
def fixtureRecreateASGAction : ASGAction :=
  { action := .recreate
    name := "asg1"
    changes := ["MinNodes: 1 -> 2"]
    existingID := some "asg-id-1" }

/-- A Recreate action for LoadBalancer `lb1` owned by `asg1`. -/
def fixtureRecreateLBAction : LBAction :=
  { action := .recreate
    name := "lb1"
    asgName := "asg1"
    changes := ["ServiceClassPath: a -> b"]
    existingID := some "lb-id-1"
    asgID := some "asg-id-1" }

/-- An `UpdateApplication` call that sets the active version. -/
def GatewayCall.isActivation : GatewayCall → Bool
  | .updateAppActiveVersion _ _ => true
  | _ => false

/-- An apply environment where every gateway call succeeds, no
application has prior versions, and created versions get number 1. -/
def fixtureApplyEnv : ApplyEnv :=
  { fails := fun _ => false
    latest := fun _ => none
    assigned := fun _ => 1 }

/-! ## Lemmas about the Go-map model -/

theorem goLookup_append {α : Type} (m m' : List (String × α)) (k : String) :
    goLookup (m ++ m') k =
      match goLookup m' k with
      | some v => some v
      | none => goLookup m k := by
  induction m with
  | nil =>
    cases h : goLookup m' k <;> simp [goLookup, h]
  | cons p rest ih =>
    simp only [List.cons_append, goLookup]
    cases h : goLookup m' k <;> cases h2 : goLookup rest k <;>
      simp [ih, h, h2]

theorem goLookup_goErase_self {α : Type} (m : List (String × α)) (k : String) :
    goLookup (goErase m k) k = none := by
  induction m with
  | nil => simp [goErase, goLookup]
  | cons p rest ih =>
    by_cases h : p.1 == k <;>
      simp_all [goErase, goLookup, List.filter_cons, bne]

theorem goLookup_updateMap {α : Type} (m : List (String × α)) (k : String)
    (f : α → α) :
    goLookup (m.map (fun p => if p.1 == k then (p.1, f p.2) else p)) k =
      (goLookup m k).map f := by
  induction m with
  | nil => simp [goLookup]
  | cons p rest ih =>
    by_cases h : p.1 == k <;> cases h2 : goLookup rest k <;>
      simp_all [goLookup, List.map]

theorem goLookup_overwriteMap {α : Type} (m : List (String × α)) (k : String)
    (v : α) :
    goLookup (m.map (fun p => if p.1 == k then (k, v) else p)) k =
      if (goLookup m k).isSome then some v else none := by
  induction m with
  | nil => simp [goLookup]
  | cons p rest ih =>
    by_cases h : p.1 == k <;> cases h2 : goLookup rest k <;>
      simp_all [goLookup, List.map]

theorem goLookup_goInsert_self {α : Type} (m : List (String × α)) (k : String)
    (v : α) :
    goLookup (goInsert m k v) k = some v := by
  unfold goInsert
  by_cases h : (goLookup m k).isSome
  · rw [if_pos h, goLookup_overwriteMap, if_pos h]
  · rw [if_neg h, goLookup_append]
    simp [goLookup]

/-! ## C8: ledger round-trip and entry pruning -/

theorem appEntry_ensureApp (s : State) (appName : String) :
    (s.ensureApp appName).appEntry appName =
      some ((s.appEntry appName).getD ⟨none, []⟩) := by
  unfold State.ensureApp
  by_cases h : (goLookup s.applications appName).isSome
  · rw [if_pos h]
    unfold State.appEntry
    cases h2 : goLookup s.applications appName with
    | some a => rfl
    | none => rw [h2] at h; simp at h
  · rw [if_neg h]
    have h2 : goLookup s.applications appName = none := by
      cases h2 : goLookup s.applications appName with
      | some a => rw [h2] at h; simp at h
      | none => rfl
    unfold State.appEntry
    rw [h2]
    show goLookup (goInsert s.applications appName ⟨none, []⟩) appName = _
    rw [goLookup_goInsert_self]
    rfl

theorem appEntry_updateApp (s : State) (appName : String)
    (f : ApplicationState → ApplicationState) :
    (s.updateApp appName f).appEntry appName = (s.appEntry appName).map f := by
  unfold State.updateApp State.appEntry
  exact goLookup_updateMap s.applications appName f

theorem appEntry_cleanupApp (s : State) (appName : String) :
    (s.cleanupApp appName).appEntry appName = pruneEntry (s.appEntry appName) := by
  cases h : goLookup s.applications appName with
  | some a =>
    have he : s.appEntry appName = some a := h
    simp only [State.cleanupApp, State.appEntry, h, he, pruneEntry]
    by_cases hc : (a.registryPasswordVersion.isNone && a.secretEnvVersions.isEmpty) = true
    · rw [if_pos hc, if_pos hc]
      exact goLookup_goErase_self s.applications appName
    · rw [if_neg hc, if_neg hc]
      exact h
  | none =>
    have he : s.appEntry appName = none := h
    simp only [State.cleanupApp, State.appEntry, h, he, pruneEntry]

theorem appEntry_after_setPasswordVersion (s : State) (appName : String)
    (w : Option Int) :
    (s.setPasswordVersion appName w).appEntry appName =
      (if w.isNone && (s.envVersions appName).isEmpty then none
       else some ⟨w, s.envVersions appName⟩) := by
  show (((s.ensureApp appName).updateApp appName _).cleanupApp appName).appEntry appName = _
  rw [appEntry_cleanupApp, appEntry_updateApp, appEntry_ensureApp]
  unfold State.envVersions
  cases h : s.appEntry appName with
  | some a => simp only [h, Option.getD, Option.map, pruneEntry]
  | none => simp only [h, Option.getD, Option.map, pruneEntry]

theorem appEntry_after_setSecretEnvVersion (s : State) (appName envKey : String)
    (w : Option Int) :
    (s.setSecretEnvVersion appName envKey w).appEntry appName =
      (let newEnvs :=
        match w with
        | some v => goInsert (s.envVersions appName) envKey v
        | none => goErase (s.envVersions appName) envKey
       if (s.getPasswordVersion appName).isNone && newEnvs.isEmpty then none
       else some ⟨s.getPasswordVersion appName, newEnvs⟩) := by
  show (((s.ensureApp appName).updateApp appName _).cleanupApp appName).appEntry appName = _
  rw [appEntry_cleanupApp, appEntry_updateApp, appEntry_ensureApp]
  unfold State.envVersions State.getPasswordVersion
  cases h : s.appEntry appName with
  | some a =>
    have h2 : goLookup s.applications appName = some a := h
    cases w <;> simp only [h, h2, Option.getD, Option.map, pruneEntry]
  | none =>
    have h2 : goLookup s.applications appName = none := h
    cases w <;> simp only [h, h2, Option.getD, Option.map, pruneEntry]

/-- C8: for every application name and version `v`, setting the
ledger's registry-password version to `v` and then querying it returns
`v`; setting it to absent leaves no stored version; and (under either
setter) the application's ledger entry is deleted exactly when both the
registry-password version and all secret-environment versions for that
application end up absent. -/
theorem C8_ledger_roundtrip_and_prune :
    ∀ (s : State) (appName : String) (v : Int),
      ((s.setPasswordVersion appName (some v)).getPasswordVersion appName = some v)
      ∧ ((s.setPasswordVersion appName none).getPasswordVersion appName = none)
      ∧ (∀ w : Option Int,
          (s.setPasswordVersion appName w).appEntry appName = none
            ↔ (w = none ∧ s.envVersions appName = []))
      ∧ (∀ (envKey : String) (w : Option Int),
          (s.setSecretEnvVersion appName envKey w).appEntry appName = none
            ↔ (s.getPasswordVersion appName = none
               ∧ (match w with
                  | some u => goInsert (s.envVersions appName) envKey u
                  | none => goErase (s.envVersions appName) envKey) = [])) := by
  intro s appName v
  refine ⟨?_, ?_, ?_, ?_⟩
  · have h := appEntry_after_setPasswordVersion s appName (some v)
    show (match (s.setPasswordVersion appName (some v)).appEntry appName with
      | some app => app.registryPasswordVersion
      | none => none) = some v
    rw [h]
    simp
  · have h := appEntry_after_setPasswordVersion s appName none
    show (match (s.setPasswordVersion appName none).appEntry appName with
      | some app => app.registryPasswordVersion
      | none => none) = none
    rw [h]
    by_cases hc : (s.envVersions appName).isEmpty
    · simp [hc]
    · simp [hc]
  · intro w
    rw [appEntry_after_setPasswordVersion]
    by_cases hc : (w.isNone && (s.envVersions appName).isEmpty) = true
    · rw [if_pos hc]
      simp only [Bool.and_eq_true, Option.isNone_iff_eq_none,
        List.isEmpty_iff] at hc
      simp [hc]
    · rw [if_neg hc]
      simp only [Bool.and_eq_true, Option.isNone_iff_eq_none,
        List.isEmpty_iff] at hc
      simp [hc]
  · intro envKey w
    rw [appEntry_after_setSecretEnvVersion]
    by_cases hc : ((s.getPasswordVersion appName).isNone
        && (match w with
            | some u => goInsert (s.envVersions appName) envKey u
            | none => goErase (s.envVersions appName) envKey).isEmpty) = true
    · rw [if_pos hc]
      simp only [Bool.and_eq_true, Option.isNone_iff_eq_none,
        List.isEmpty_iff] at hc
      simp [hc]
    · rw [if_neg hc]
      simp only [Bool.and_eq_true, Option.isNone_iff_eq_none,
        List.isEmpty_iff] at hc
      simp [hc]

/-- C1: for an existing application, the created version's image is
inherited from the latest existing version regardless of the desired
image; the planner's comparison never inspects the image field; hence a
desired spec whose comparison against the live latest version is empty
(for any image value) is classified Noop. -/
theorem C1_image_inherited_and_ignored_by_planner :
    (∀ (spec : ApplicationSpec) (base : ReadApplicationVersionDetail),
      (buildCreateVersionRequestWithBase spec (some base)).image = base.image)
    ∧ (∀ (st : State) (appName : String) (cur : ReadApplicationVersionDetail)
        (des : ApplicationSpec) (img1 img2 : String),
        compareVersion st appName cur { des with image := img1 }
          = compareVersion st appName cur { des with image := img2 })
    ∧ (∀ (st : State) (appCfg : ApplicationConfig)
        (cur : ReadApplicationVersionDetail),
        compareVersion st appCfg.name cur appCfg.spec = [] →
        (planUpdateAction st appCfg (some cur)).action = ActionType.noop) := by
  refine ⟨?_, ?_, ?_⟩
  · intro spec base
    unfold buildCreateVersionRequestWithBase
    cases hru : spec.registryUsername <;> cases hrp : spec.registryPassword <;>
      by_cases hbu : (base.registryUsername.value != "") = true <;>
      by_cases hbn : base.registryUsername.isNull = true <;>
      simp [hru, hrp, hbu, hbn]
  · intro st appName cur des img1 img2
    rfl
  · intro st appCfg cur h
    simp [planUpdateAction, h]

/-- Witness for C1 at a concrete input: the desired spec differs from
the live latest version only in the image, the planner reports Noop,
and the built version request keeps the live image. -/
theorem C1_witness :
    (buildCreateVersionRequestWithBase fixtureSpecNewImage
        (some fixtureLatestVersion)).image = "nginx:1"
    ∧ (planUpdateAction State.new ⟨"web", fixtureSpecNewImage⟩
        (some fixtureLatestVersion)).action = ActionType.noop :=
  ⟨C1_image_inherited_and_ignored_by_planner.1 fixtureSpecNewImage fixtureLatestVersion,
   C1_image_inherited_and_ignored_by_planner.2.2 State.new
     ⟨"web", fixtureSpecNewImage⟩ fixtureLatestVersion (by decide)⟩

/-- C5 counterexample: in cpu mode, with the two scaling thresholds
the only differing fields, `compareVersion` reports no change at all —
the thresholds are never compared, contradicting the claim that they
are compared under the automatic mode. -/
theorem C5_counterexample_thresholds_not_compared :
    fixtureCpuSpecNewThresholds.scalingMode = "cpu"
    ∧ fixtureCpuVersion.scaleInThreshold.get? = some 30
    ∧ fixtureCpuSpecNewThresholds.scaleInThreshold = some 50
    ∧ fixtureCpuVersion.scaleOutThreshold.get? = some 70
    ∧ fixtureCpuSpecNewThresholds.scaleOutThreshold = some 90
    ∧ compareVersion State.new "web" fixtureCpuVersion
        fixtureCpuSpecNewThresholds = [] := by
  refine ⟨rfl, rfl, rfl, rfl, rfl, ?_⟩
  decide

/-- C5 (amended): fixed-scale is compared only under manual mode,
min-scale and max-scale only under cpu mode, the scale-in/scale-out
thresholds never; fields of the inactive mode (and the thresholds)
never produce change entries, while the active mode's differing
fields do. -/
theorem C5_scaling_mode_conditional_comparison :
    (∀ (st : State) (appName : String) (cur : ReadApplicationVersionDetail)
        (des : ApplicationSpec) (a : GoOpt Int) (c : Option Int),
        des.scalingMode ≠ "manual" →
        compareVersion st appName { cur with fixedScale := a }
            { des with fixedScale := c }
          = compareVersion st appName cur des)
    ∧ (∀ (st : State) (appName : String) (cur : ReadApplicationVersionDetail)
        (des : ApplicationSpec) (a b : GoOpt Int) (c d : Option Int),
        des.scalingMode ≠ "cpu" →
        compareVersion st appName { cur with minScale := a, maxScale := b }
            { des with minScale := c, maxScale := d }
          = compareVersion st appName cur des)
    ∧ (∀ (st : State) (appName : String) (cur : ReadApplicationVersionDetail)
        (des : ApplicationSpec) (a b : GoOpt Int) (c d : Option Int),
        compareVersion st appName
            { cur with scaleInThreshold := a, scaleOutThreshold := b }
            { des with scaleInThreshold := c, scaleOutThreshold := d }
          = compareVersion st appName cur des)
    ∧ (∀ (st : State) (appName : String) (cur : ReadApplicationVersionDetail)
        (des : ApplicationSpec) (v d : Int),
        des.scalingMode = "manual" → des.fixedScale = some d →
        cur.fixedScale.get? = some v → v ≠ d →
        ("FixedScale: " ++ toString v ++ " -> " ++ toString d)
          ∈ compareVersion st appName cur des)
    ∧ (∀ (st : State) (appName : String) (cur : ReadApplicationVersionDetail)
        (des : ApplicationSpec) (v d : Int),
        des.scalingMode = "cpu" → des.minScale = some d →
        cur.minScale.get? = some v → v ≠ d →
        ("MinScale: " ++ toString v ++ " -> " ++ toString d)
          ∈ compareVersion st appName cur des)
    ∧ (∀ (st : State) (appName : String) (cur : ReadApplicationVersionDetail)
        (des : ApplicationSpec) (v d : Int),
        des.scalingMode = "cpu" → des.maxScale = some d →
        cur.maxScale.get? = some v → v ≠ d →
        ("MaxScale: " ++ toString v ++ " -> " ++ toString d)
          ∈ compareVersion st appName cur des) := by
  refine ⟨?_, ?_, ?_, ?_, ?_, ?_⟩
  · intro st appName cur des a c hm
    simp [compareVersion, compareRegistryPasswordVersion, hm]
  · intro st appName cur des a b c d hm
    simp [compareVersion, compareRegistryPasswordVersion, hm]
  · intro st appName cur des a b c d
    rfl
  · intro st appName cur des v d hm hd hv hne
    simp [compareVersion, hm, hd, hv, hne]
  · intro st appName cur des v d hm hd hv hne
    simp [compareVersion, hm, hd, hv, hne]
  · intro st appName cur des v d hm hd hv hne
    simp [compareVersion, hm, hd, hv, hne]

/-- Witness for the amended C5 at concrete inputs. -/
theorem C5_witness :
    compareVersion State.new "web"
        { fixtureCpuVersion with fixedScale := ⟨7, true⟩ }
        { fixtureCpuSpecNewThresholds with fixedScale := some 9 }
      = compareVersion State.new "web" fixtureCpuVersion
          fixtureCpuSpecNewThresholds
    ∧ ("MinScale: 1 -> 5")
        ∈ compareVersion State.new "web" fixtureCpuVersion
            { fixtureCpuSpecNewThresholds with minScale := some 5 } :=
  ⟨C5_scaling_mode_conditional_comparison.1 State.new "web" fixtureCpuVersion
      fixtureCpuSpecNewThresholds ⟨7, true⟩ (some 9) (by decide),
   C5_scaling_mode_conditional_comparison.2.2.2.2.1 State.new "web"
      fixtureCpuVersion { fixtureCpuSpecNewThresholds with minScale := some 5 }
      1 5 rfl rfl rfl (by decide)⟩

/-- C4 counterexample: the ledger stores version 1 for secret variable
`API_KEY`, the desired config keeps the variable but drops its
`secretVersion`; the claim requires a "removed" change entry, yet
`compareEnv` reports no change at all (the removed case exists only
for the registry password). -/
theorem C4_counterexample_no_removed_entry_for_secret_env :
    fixtureSecretState.getSecretEnvVersion "web" "API_KEY" = some 1
    ∧ (fixtureDesiredSecretEnvNoVersion.map (fun e => e.secretVersion)) = [none]
    ∧ compareEnv fixtureSecretState "web" fixtureCurrentSecretEnv
        fixtureDesiredSecretEnvNoVersion = [] := by
  refine ⟨?_, rfl, ?_⟩ <;> decide

/-- C4 (amended): registry-password and secret-environment changes are
decided purely from the ledger versions — new/updated/equal as the
claim states for both, and "removed" for the registry password; but a
secret environment variable present in both sides whose desired
`secretVersion` is absent produces no change entry even when a version
is stored.  Secret values are never read in these decisions (the
outputs below depend only on the versions). -/
theorem C4_ledger_driven_secret_changes :
    (∀ (st : State) (appName : String) (des : ApplicationSpec) (d : Int),
        des.registryPasswordVersion = some d →
        st.getPasswordVersion appName = none →
        compareRegistryPasswordVersion st appName des
          = ["RegistryPasswordVersion: (new) -> " ++ toString d])
    ∧ (∀ (st : State) (appName : String) (des : ApplicationSpec) (d v : Int),
        des.registryPasswordVersion = some d →
        st.getPasswordVersion appName = some v → v ≠ d →
        compareRegistryPasswordVersion st appName des
          = ["RegistryPasswordVersion: " ++ toString v ++ " -> " ++ toString d])
    ∧ (∀ (st : State) (appName : String) (des : ApplicationSpec) (d : Int),
        des.registryPasswordVersion = some d →
        st.getPasswordVersion appName = some d →
        compareRegistryPasswordVersion st appName des = [])
    ∧ (∀ (st : State) (appName : String) (des : ApplicationSpec) (v : Int),
        des.registryPasswordVersion = none →
        st.getPasswordVersion appName = some v →
        compareRegistryPasswordVersion st appName des
          = ["RegistryPasswordVersion: " ++ toString v ++ " -> (removed)"])
    ∧ (∀ (st : State) (appName : String)
        (curByKey : List (String × ReadEnvironmentVariable))
        (e : EnvVarConfig) (cur : ReadEnvironmentVariable) (d : Int),
        goLookup curByKey e.key = some cur → e.secret = true →
        e.secretVersion = some d →
        st.getSecretEnvVersion appName e.key = none →
        compareEnvDesiredEntry st appName curByKey e
          = ["Env update: " ++ e.key ++ " (secret, version: new -> "
              ++ toString d ++ ")"])
    ∧ (∀ (st : State) (appName : String)
        (curByKey : List (String × ReadEnvironmentVariable))
        (e : EnvVarConfig) (cur : ReadEnvironmentVariable) (d v : Int),
        goLookup curByKey e.key = some cur → e.secret = true →
        e.secretVersion = some d →
        st.getSecretEnvVersion appName e.key = some v → v ≠ d →
        compareEnvDesiredEntry st appName curByKey e
          = ["Env update: " ++ e.key ++ " (secret, version: " ++ toString v
              ++ " -> " ++ toString d ++ ")"])
    ∧ (∀ (st : State) (appName : String)
        (curByKey : List (String × ReadEnvironmentVariable))
        (e : EnvVarConfig) (cur : ReadEnvironmentVariable) (d : Int),
        goLookup curByKey e.key = some cur → e.secret = true →
        e.secretVersion = some d →
        st.getSecretEnvVersion appName e.key = some d →
        compareEnvDesiredEntry st appName curByKey e = [])
    ∧ (∀ (st : State) (appName : String)
        (curByKey : List (String × ReadEnvironmentVariable))
        (e : EnvVarConfig) (cur : ReadEnvironmentVariable),
        goLookup curByKey e.key = some cur → e.secret = true →
        e.secretVersion = none →
        compareEnvDesiredEntry st appName curByKey e = []) := by
  refine ⟨?_, ?_, ?_, ?_, ?_, ?_, ?_, ?_⟩
  · intro st appName des d hd hs
    simp [compareRegistryPasswordVersion, hd, hs]
  · intro st appName des d v hd hs hne
    simp [compareRegistryPasswordVersion, hd, hs, hne]
  · intro st appName des d hd hs
    simp [compareRegistryPasswordVersion, hd, hs]
  · intro st appName des v hd hs
    simp [compareRegistryPasswordVersion, hd, hs]
  · intro st appName curByKey e cur d hcur hsec hd hs
    simp [compareEnvDesiredEntry, hcur, hsec, hd, hs]
  · intro st appName curByKey e cur d v hcur hsec hd hs hne
    simp [compareEnvDesiredEntry, hcur, hsec, hd, hs, hne]
  · intro st appName curByKey e cur d hcur hsec hd hs
    simp [compareEnvDesiredEntry, hcur, hsec, hd, hs]
  · intro st appName curByKey e cur hcur hsec hd
    simp [compareEnvDesiredEntry, hcur, hsec, hd]

/-- Witness for the amended C4 at concrete inputs. -/
theorem C4_witness :
    compareRegistryPasswordVersion State.new "web"
        { fixtureSpecNewImage with registryPasswordVersion := some 1 }
      = ["RegistryPasswordVersion: (new) -> 1"]
    ∧ compareEnvDesiredEntry fixtureSecretState "web"
        (goMapOfList fixtureCurrentSecretEnv (fun e => e.key))
        { key := "API_KEY", value := none, secret := true, secretVersion := none }
      = [] :=
  ⟨C4_ledger_driven_secret_changes.1 State.new "web"
      { fixtureSpecNewImage with registryPasswordVersion := some 1 } 1 rfl rfl,
   C4_ledger_driven_secret_changes.2.2.2.2.2.2.2 fixtureSecretState "web"
      (goMapOfList fixtureCurrentSecretEnv (fun e => e.key))
      { key := "API_KEY", value := none, secret := true, secretVersion := none }
      { key := "API_KEY", value := ⟨true, ""⟩, secret := true }
      (by decide) rfl rfl⟩

/-! ## C7: the asynchronous-deletion wait loop -/

theorem waitFrom_timedOut_of_over (fetch : Nat → ASGFetchResult) (k : Nat)
    (h : 3 * k > 300) : waitForASGDeletionFrom fetch k = .timedOut := by
  unfold waitForASGDeletionFrom
  rw [dif_pos h]

theorem waitFrom_checkFailed_here (fetch : Nat → ASGFetchResult) (k : Nat)
    (h : ¬ 3 * k > 300) (hf : fetch k = .securityError) :
    waitForASGDeletionFrom fetch k = .checkFailed := by
  unfold waitForASGDeletionFrom
  rw [dif_neg h, hf]

theorem waitFrom_deleted_here (fetch : Nat → ASGFetchResult) (k : Nat)
    (h : ¬ 3 * k > 300) (hf : fetch k = .otherError) :
    waitForASGDeletionFrom fetch k = .deleted := by
  unfold waitForASGDeletionFrom
  rw [dif_neg h, hf]

theorem waitFrom_step (fetch : Nat → ASGFetchResult) (k : Nat)
    (h : ¬ 3 * k > 300) (hf : fetch k = .ok) :
    waitForASGDeletionFrom fetch k = waitForASGDeletionFrom fetch (k + 1) := by
  conv_lhs => unfold waitForASGDeletionFrom
  rw [dif_neg h, hf]

theorem waitFrom_timedOut_of_all_ok (n : Nat) :
    ∀ (fetch : Nat → ASGFetchResult) (k : Nat), 101 - k ≤ n →
    (∀ i, k ≤ i → i ≤ 100 → fetch i = .ok) →
    waitForASGDeletionFrom fetch k = .timedOut := by
  induction n with
  | zero =>
    intro fetch k hn _
    exact waitFrom_timedOut_of_over fetch k (by omega)
  | succ n ih =>
    intro fetch k hn hok
    by_cases h : 3 * k > 300
    · exact waitFrom_timedOut_of_over fetch k h
    · rw [waitFrom_step fetch k h (hok k le_rfl (by omega))]
      exact ih fetch (k + 1) (by omega) (fun i hi hi2 => hok i (by omega) hi2)

theorem waitFrom_reaches (n : Nat) :
    ∀ (fetch : Nat → ASGFetchResult) (k j : Nat), j - k ≤ n → k ≤ j →
    3 * j ≤ 300 →
    (∀ i, k ≤ i → i < j → fetch i = .ok) →
    waitForASGDeletionFrom fetch k = waitForASGDeletionFrom fetch j := by
  induction n with
  | zero =>
    intro fetch k j hn hkj _ _
    have : k = j := by omega
    rw [this]
  | succ n ih =>
    intro fetch k j hn hkj hj hok
    by_cases hkj2 : k = j
    · rw [hkj2]
    · rw [waitFrom_step fetch k (by omega) (hok k le_rfl (by omega))]
      exact ih fetch (k + 1) j (by omega) (by omega) hj
        (fun i hi hi2 => hok i (by omega) hi2)

/-- C7 counterexample: a security error from the poll fetch is not
treated as deletion — the wait aborts with a check failure instead of
returning success, refuting "every error is treated as confirmation of
deletion". -/
theorem C7_counterexample_security_error_fails :
    waitForASGDeletion (fun _ => ASGFetchResult.securityError)
      = WaitResult.checkFailed
    ∧ WaitResult.checkFailed ≠ WaitResult.deleted := by
  constructor
  · exact waitFrom_checkFailed_here _ 0 (by omega) rfl
  · intro h
    cases h

/-- C7 (amended): while waiting for an asynchronous ASG deletion,
every fetch error other than a security error is treated as
confirmation of deletion and the wait succeeds; a security error
aborts the wait with a distinct failure; and if every poll inside the
5-minute ceiling still finds the resource, the wait fails with a
timeout outcome distinct from either. -/
theorem C7_wait_for_deletion_outcomes :
    ∀ (fetch : Nat → ASGFetchResult),
      (∀ j, j ≤ 100 → (∀ i, i < j → fetch i = .ok) →
        fetch j = .otherError → waitForASGDeletion fetch = .deleted)
      ∧ (∀ j, j ≤ 100 → (∀ i, i < j → fetch i = .ok) →
        fetch j = .securityError → waitForASGDeletion fetch = .checkFailed)
      ∧ ((∀ i, i ≤ 100 → fetch i = .ok) →
        waitForASGDeletion fetch = .timedOut)
      ∧ WaitResult.timedOut ≠ WaitResult.deleted
      ∧ WaitResult.timedOut ≠ WaitResult.checkFailed := by
  intro fetch
  refine ⟨?_, ?_, ?_, ?_, ?_⟩
  · intro j hj hok hf
    unfold waitForASGDeletion
    rw [waitFrom_reaches 101 fetch 0 j (by omega) (by omega) (by omega)
      (fun i _ hi2 => hok i hi2)]
    exact waitFrom_deleted_here fetch j (by omega) hf
  · intro j hj hok hf
    unfold waitForASGDeletion
    rw [waitFrom_reaches 101 fetch 0 j (by omega) (by omega) (by omega)
      (fun i _ hi2 => hok i hi2)]
    exact waitFrom_checkFailed_here fetch j (by omega) hf
  · intro hok
    unfold waitForASGDeletion
    exact waitFrom_timedOut_of_all_ok 101 fetch 0 (by omega)
      (fun i _ hi2 => hok i hi2)
  · intro h; cases h
  · intro h; cases h

/-- Witness for the amended C7 at concrete poll streams. -/
theorem C7_witness :
    waitForASGDeletion (fun _ => ASGFetchResult.otherError) = WaitResult.deleted
    ∧ waitForASGDeletion (fun _ => ASGFetchResult.ok) = WaitResult.timedOut :=
  ⟨(C7_wait_for_deletion_outcomes (fun _ => ASGFetchResult.otherError)).1 0
      (by omega) (fun i hi => absurd hi (by omega)) rfl,
   (C7_wait_for_deletion_outcomes (fun _ => ASGFetchResult.ok)).2.2.1
      (fun _ _ => rfl)⟩

set_option maxRecDepth 4000 in
/-- C6: `getLatestVersion` issues a single `ListApplicationVersions`
call and never follows the next cursor, so with 31 versions split
across two pages it reports version 30 as the latest even though
draining the cursor chain (as `listAllApplications` and the
version-listing loop of `ListVersions` do) shows version 31 exists. -/
theorem C6_getLatestVersion_misses_later_pages :
    getLatestVersionNumber fixtureVersionPages = some 30
    ∧ (31 : Int) ∈ drainPages fixtureVersionPages
    ∧ (∀ v ∈ drainPages fixtureVersionPages, v ≤ 31)
    ∧ drainPages fixtureVersionPages ≠ fixtureVersionPages.headD [] := by
  refine ⟨by decide, by decide, by decide, by decide⟩

/-! ## C2: orphan policy -/

theorem goLookup_singleton {α : Type} (k k' : String) (v : α) :
    goLookup [(k, v)] k' = if k == k' then some v else none := by
  simp [goLookup]

theorem foldl_goInsert_of_nodup {α β : Type} (key : α → String) (val : α → β) :
    ∀ (xs : List α) (m : List (String × β)),
      (∀ a ∈ xs, goLookup m (key a) = none) → (xs.map key).Nodup →
      xs.foldl (fun m a => goInsert m (key a) (val a)) m
        = m ++ xs.map (fun a => (key a, val a)) := by
  intro xs
  induction xs with
  | nil => intro m _ _; simp
  | cons a rest ih =>
    intro m hnone hnd
    have ha : goLookup m (key a) = none := hnone a (List.mem_cons_self a rest)
    have hins : goInsert m (key a) (val a) = m ++ [(key a, val a)] := by
      unfold goInsert
      rw [if_neg (by simp [ha])]
    have hnd2 : ((a :: rest).map key).Nodup := hnd
    simp only [List.map_cons, List.nodup_cons] at hnd2
    have hpre : ∀ b ∈ rest, goLookup (m ++ [(key a, val a)]) (key b) = none := by
      intro b hb
      have hne : ¬((key a == key b) = true) := by
        simp only [beq_iff_eq]
        intro h
        exact hnd2.1 (h ▸ List.mem_map_of_mem key hb)
      rw [goLookup_append, goLookup_singleton, if_neg hne]
      exact hnone b (List.mem_cons_of_mem a hb)
    have hrest := ih (m ++ [(key a, val a)]) hpre hnd2.2
    simp only [List.foldl_cons, hins, hrest, List.map_cons,
      List.append_assoc, List.singleton_append]

theorem goMapOfList_of_nodup {α : Type} (xs : List α) (key : α → String)
    (h : (xs.map key).Nodup) :
    goMapOfList xs key = xs.map (fun a => (key a, a)) := by
  have h2 := foldl_goInsert_of_nodup key (fun a => a) xs []
    (fun a _ => rfl) h
  simpa [goMapOfList] using h2

theorem planASGDesiredEntry_action_ne_delete
    (m : List (String × ReadAutoScalingGroupDetail))
    (d : AutoScalingGroupConfig) :
    (planASGDesiredEntry m d).action ≠ ASGActionType.delete := by
  unfold planASGDesiredEntry
  cases goLookup m d.name with
  | none => simp
  | some cur =>
    dsimp only
    split <;> simp

theorem planUpdateAction_applicationName (st : State)
    (appCfg : ApplicationConfig)
    (lv : Option ReadApplicationVersionDetail) :
    (planUpdateAction st appCfg lv).applicationName = appCfg.name := by
  unfold planUpdateAction
  cases lv with
  | none => rfl
  | some latest =>
    dsimp only
    split <;> rfl

theorem count_filter_ne (names : List String) (x y : String) (h : x ≠ y) :
    (names.filter (fun n => n != y)).count x = names.count x := by
  induction names with
  | nil => rfl
  | cons n rest ih =>
    by_cases hn : n = y
    · subst hn
      have hx : (n == x) = false := by
        simp only [beq_eq_false_iff_ne, ne_eq]
        exact fun h2 => h (h2 ▸ rfl)
      simp [List.filter_cons, List.count_cons, hx, ih]
    · simp [List.filter_cons, List.count_cons, hn, ih]

theorem createPlanStep_eq (st : State)
    (latest : String → Option ReadApplicationVersionDetail)
    (acts : List PlannedAction) (names : List String)
    (cfg : ApplicationConfig) :
    createPlanStep st latest (acts, names) cfg =
      if names.contains cfg.name then
        (acts ++ [planUpdateAction st cfg (latest cfg.name)],
         names.filter (fun n => n != cfg.name))
      else
        (acts ++ [{ applicationName := cfg.name
                    action := ActionType.create
                    changes := ["Create new application and version"] }],
         names) := rfl

theorem createPlan_actions_names (st : State)
    (latest : String → Option ReadApplicationVersionDetail) :
    ∀ (cfgApps : List ApplicationConfig) (acts : List PlannedAction)
      (names : List String) (a : PlannedAction),
      a ∈ (cfgApps.foldl (createPlanStep st latest) (acts, names)).1 →
      a ∈ acts ∨ a.applicationName ∈ cfgApps.map (fun c => c.name) := by
  intro cfgApps
  induction cfgApps with
  | nil =>
    intro acts names a ha
    exact Or.inl ha
  | cons cfg rest ih =>
    intro acts names a ha
    rw [List.foldl_cons, createPlanStep_eq] at ha
    by_cases hc : names.contains cfg.name = true
    · rw [if_pos hc] at ha
      rcases ih _ _ a ha with h | h
      · rcases List.mem_append.1 h with h2 | h2
        · exact Or.inl h2
        · right
          have : a = planUpdateAction st cfg (latest cfg.name) := by
            simpa using h2
          rw [this, planUpdateAction_applicationName]
          simp
      · right
        simp only [List.map_cons, List.mem_cons]
        exact Or.inr h
    · rw [if_neg hc] at ha
      rcases ih _ _ a ha with h | h
      · rcases List.mem_append.1 h with h2 | h2
        · exact Or.inl h2
        · right
          have : a = { applicationName := cfg.name
                       action := ActionType.create
                       changes := ["Create new application and version"] } := by
            simpa using h2
          rw [this]
          simp
      · right
        simp only [List.map_cons, List.mem_cons]
        exact Or.inr h

theorem createPlan_warn_count (st : State)
    (latest : String → Option ReadApplicationVersionDetail) :
    ∀ (cfgApps : List ApplicationConfig) (acts : List PlannedAction)
      (names : List String) (name : String),
      name ∉ cfgApps.map (fun c => c.name) →
      (cfgApps.foldl (createPlanStep st latest) (acts, names)).2.count name
        = names.count name := by
  intro cfgApps
  induction cfgApps with
  | nil => intro acts names name _; rfl
  | cons cfg rest ih =>
    intro acts names name hname
    have hne : name ≠ cfg.name := by
      intro h
      exact hname (by simp [h])
    have hrest : name ∉ rest.map (fun c => c.name) := by
      intro h
      exact hname (by simp [h])
    rw [List.foldl_cons, createPlanStep_eq]
    by_cases hc : names.contains cfg.name = true
    · rw [if_pos hc, ih _ _ name hrest, count_filter_ne names name cfg.name hne]
    · rw [if_neg hc, ih _ _ name hrest]

/-- C2 counterexample: a live LoadBalancer absent from the desired
configuration is planned for deletion — the plan holds exactly one
Delete action and no Skip (the LB action type has no Skip at all),
refuting "a LoadBalancer orphan always yields a Skip action and never
a Delete action". -/
theorem C2_counterexample_lb_orphan_deleted :
    (planLBChanges (fun _ => [fixtureLBDetail]) [] [fixtureASGDetail]).map
        (fun a => a.action) = [LBActionType.delete] := by
  decide

/-- C2 (amended): a live AutoScalingGroup absent from the desired
configuration yields a Skip action and never a Delete; a live
LoadBalancer absent from the desired configuration yields a Delete
action; a live Application absent from the configuration yields no
planned action and exactly one warning. -/
theorem C2_orphan_policy :
    (∀ (currentASGs : List ReadAutoScalingGroupDetail)
        (desired : List AutoScalingGroupConfig) (name : String),
        (currentASGs.map (fun a => a.name)).Nodup →
        name ∈ currentASGs.map (fun a => a.name) →
        name ∉ desired.map (fun d => d.name) →
        ∃ a ∈ planASGChanges currentASGs desired,
          a.action = ASGActionType.skip ∧ a.name = name)
    ∧ (∀ (currentASGs : List ReadAutoScalingGroupDetail)
        (desired : List AutoScalingGroupConfig) (a : ASGAction),
        a ∈ planASGChanges currentASGs desired →
        a.action ≠ ASGActionType.delete)
    ∧ (∀ (lbsOf : String → List ReadLoadBalancerDetail)
        (desired : List LoadBalancerConfig)
        (currentASGs : List ReadAutoScalingGroupDetail)
        (asg : ReadAutoScalingGroupDetail) (lb : ReadLoadBalancerDetail),
        (currentASGs.map (fun a => a.name)).Nodup →
        asg ∈ currentASGs →
        ((lbsOf asg.autoScalingGroupID).map (fun l => l.name)).Nodup →
        lb ∈ lbsOf asg.autoScalingGroupID →
        (∀ d ∈ desired, ¬(d.autoScalingGroupName = asg.name ∧ d.name = lb.name)) →
        ∃ a ∈ planLBChanges lbsOf desired currentASGs,
          a.action = LBActionType.delete ∧ a.name = lb.name
            ∧ a.asgName = asg.name)
    ∧ (∀ (st : State) (latest : String → Option ReadApplicationVersionDetail)
        (existingNames : List String) (cfgApps : List ApplicationConfig)
        (name : String),
        existingNames.Nodup →
        name ∈ existingNames →
        name ∉ cfgApps.map (fun c => c.name) →
        (∀ a ∈ (createPlanActions st latest existingNames cfgApps).1,
          a.applicationName ≠ name)
        ∧ (createPlanActions st latest existingNames cfgApps).2.count name
            = 1) := by
  refine ⟨?_, ?_, ?_, ?_⟩
  · intro currentASGs desired name hnd hmem hnotdes
    rcases List.mem_map.1 hmem with ⟨asg, hasg, rfl⟩
    unfold planASGChanges
    refine ⟨{ action := ASGActionType.skip
              name := asg.name
              changes := ["not in YAML, skipping"]
              existingID := none }, ?_, rfl, rfl⟩
    apply List.mem_append_right
    apply List.mem_map.2
    refine ⟨(asg.name, asg), ?_, rfl⟩
    apply List.mem_filter.2
    constructor
    · rw [goMapOfList_of_nodup currentASGs (fun a => a.name) hnd]
      exact List.mem_map_of_mem _ hasg
    · simpa using hnotdes
  · intro currentASGs desired a ha hdel
    unfold planASGChanges at ha
    rcases List.mem_append.1 ha with h1 | h2
    · rcases List.mem_map.1 h1 with ⟨d, _, rfl⟩
      exact planASGDesiredEntry_action_ne_delete _ d hdel
    · rcases List.mem_map.1 h2 with ⟨p, _, rfl⟩
      simp at hdel
  · intro lbsOf desired currentASGs asg lb hnd hasg hlbnd hlb hnotdes
    unfold planLBChanges
    refine ⟨{ action := LBActionType.delete
              name := lb.name
              asgName := asg.name
              changes := ["LB will be deleted"]
              existingID := some lb.loadBalancerID
              asgID := goLookup ((goMapOfList currentASGs (fun a => a.name)).map
                (fun p => (p.1, p.2.autoScalingGroupID))) asg.name },
        ?_, rfl, rfl, rfl⟩
    apply List.mem_append_right
    apply List.mem_flatMap.2
    refine ⟨(asg.name, goMapOfList (lbsOf asg.autoScalingGroupID)
      (fun l => l.name)), ?_, ?_⟩
    · have hfold := foldl_goInsert_of_nodup (fun a : ReadAutoScalingGroupDetail => a.name)
        (fun a => goMapOfList (lbsOf a.autoScalingGroupID) (fun l => l.name))
        currentASGs [] (fun a _ => rfl) hnd
      rw [hfold]
      simp only [List.nil_append]
      exact List.mem_map_of_mem _ hasg
    · apply List.mem_map.2
      refine ⟨(lb.name, lb), ?_, rfl⟩
      apply List.mem_filter.2
      constructor
      · rw [goMapOfList_of_nodup _ _ hlbnd]
        exact List.mem_map_of_mem _ hlb
      · simp only [Bool.not_eq_eq_eq_not, Bool.not_true, List.any_eq_false]
        intro d hd
        simp only [Bool.and_eq_true, beq_iff_eq]
        intro h
        exact hnotdes d hd ⟨h.1, h.2⟩
  · intro st latest existingNames cfgApps name hnd hmem hnot
    constructor
    · intro a ha heq
      rcases createPlan_actions_names st latest cfgApps [] existingNames a ha with
        h | h
      · simp at h
      · rw [heq] at h
        exact hnot h
    · unfold createPlanActions
      rw [createPlan_warn_count st latest cfgApps [] existingNames name hnot]
      exact List.count_eq_one_of_mem hnd hmem

/-- Witness for the amended C2 at concrete inputs. -/
theorem C2_witness :
    (∃ a ∈ planASGChanges [fixtureASGDetail] [],
      a.action = ASGActionType.skip ∧ a.name = "asg1")
    ∧ (∃ a ∈ planLBChanges (fun _ => [fixtureLBDetail]) [] [fixtureASGDetail],
      a.action = LBActionType.delete ∧ a.name = "lb1" ∧ a.asgName = "asg1")
    ∧ (∀ a ∈ (createPlanActions State.new (fun _ => none) ["orphan"] []).1,
        a.applicationName ≠ "orphan")
    ∧ (createPlanActions State.new (fun _ => none) ["orphan"] []).2.count
        "orphan" = 1 := by
  refine ⟨?_, ?_, ?_, ?_⟩
  · have h := C2_orphan_policy.1 [fixtureASGDetail] [] "asg1"
      (by decide) (by decide) (by decide)
    simpa using h
  · have h := C2_orphan_policy.2.2.1 (fun _ => [fixtureLBDetail]) []
      [fixtureASGDetail] fixtureASGDetail fixtureLBDetail
      (by decide) (by decide) (by decide) (by decide)
      (by intro d hd; cases hd)
    simpa using h
  · exact (C2_orphan_policy.2.2.2 State.new (fun _ => none) ["orphan"] []
      "orphan" (by decide) (by decide) (by decide)).1
  · exact (C2_orphan_policy.2.2.2 State.new (fun _ => none) ["orphan"] []
      "orphan" (by decide) (by decide) (by decide)).2

/-! ## C3: apply ordering for infrastructure resources -/

theorem lbDeletePass_shape :
    ∀ (actions : List LBAction) (t : List GatewayCall),
      lbDeletePass actions = .ok t →
      ∀ c ∈ t, ∃ a l ai li, c = GatewayCall.deleteLB a l ai li := by
  intro actions
  induction actions with
  | nil =>
    intro t h c hc
    unfold lbDeletePass at h
    cases h
    cases hc
  | cons action rest ih =>
    intro t h c hc
    unfold lbDeletePass at h
    by_cases hcond : (action.action == LBActionType.delete
        || action.action == LBActionType.recreate) = true
    · rw [if_pos hcond] at h
      cases hid : action.existingID with
      | none => rw [hid] at h; simp at h
      | some lbID =>
        cases hid2 : action.asgID with
        | none => rw [hid, hid2] at h; simp at h
        | some asgID =>
          rw [hid, hid2] at h
          cases hrec : lbDeletePass rest with
          | error e => rw [hrec] at h; simp at h
          | ok t2 =>
            rw [hrec] at h
            cases h
            rcases List.mem_cons.1 hc with rfl | hc2
            · exact ⟨_, _, _, _, rfl⟩
            · exact ih t2 hrec c hc2
    · rw [if_neg hcond] at h
      exact ih t h c hc

theorem lbDeletePass_emits :
    ∀ (actions : List LBAction) (t : List GatewayCall) (b : LBAction),
      lbDeletePass actions = .ok t → b ∈ actions →
      (b.action = LBActionType.delete ∨ b.action = LBActionType.recreate) →
      ∃ c ∈ t, GatewayCall.isDeleteLBOf b.asgName b.name c = true := by
  intro actions
  induction actions with
  | nil =>
    intro t b _ hb _
    cases hb
  | cons action rest ih =>
    intro t b h hb hbact
    unfold lbDeletePass at h
    by_cases hcond : (action.action == LBActionType.delete
        || action.action == LBActionType.recreate) = true
    · rw [if_pos hcond] at h
      cases hid : action.existingID with
      | none => rw [hid] at h; simp at h
      | some lbID =>
        cases hid2 : action.asgID with
        | none => rw [hid, hid2] at h; simp at h
        | some asgID =>
          rw [hid, hid2] at h
          cases hrec : lbDeletePass rest with
          | error e => rw [hrec] at h; simp at h
          | ok t2 =>
            rw [hrec] at h
            cases h
            rcases List.mem_cons.1 hb with rfl | hb2
            · exact ⟨GatewayCall.deleteLB b.asgName b.name asgID lbID,
                List.mem_cons_self _ _, by simp [GatewayCall.isDeleteLBOf]⟩
            · rcases ih t2 b hrec hb2 hbact with ⟨c, hct, hcp⟩
              exact ⟨c, List.mem_cons_of_mem _ hct, hcp⟩
    · rw [if_neg hcond] at h
      rcases List.mem_cons.1 hb with rfl | hb2
      · rcases hbact with hba | hba <;> simp [hba] at hcond
      · exact ih t b h hb2 hbact

theorem asgDeletePass_shape :
    ∀ (actions : List ASGAction) (t : List GatewayCall),
      asgDeletePass actions = .ok t →
      ∀ c ∈ t, ∃ n i, c = GatewayCall.deleteASG n i := by
  intro actions
  induction actions with
  | nil =>
    intro t h c hc
    unfold asgDeletePass at h
    cases h
    cases hc
  | cons action rest ih =>
    intro t h c hc
    unfold asgDeletePass at h
    by_cases hcond : (action.action == ASGActionType.delete
        || action.action == ASGActionType.recreate) = true
    · rw [if_pos hcond] at h
      cases hid : action.existingID with
      | none => rw [hid] at h; simp at h
      | some id =>
        rw [hid] at h
        cases hrec : asgDeletePass rest with
        | error e => rw [hrec] at h; simp at h
        | ok t2 =>
          rw [hrec] at h
          cases h
          rcases List.mem_cons.1 hc with rfl | hc2
          · exact ⟨_, _, rfl⟩
          · exact ih t2 hrec c hc2
    · rw [if_neg hcond] at h
      exact ih t h c hc

theorem asgDeletePass_emits :
    ∀ (actions : List ASGAction) (t : List GatewayCall) (b : ASGAction),
      asgDeletePass actions = .ok t → b ∈ actions →
      (b.action = ASGActionType.delete ∨ b.action = ASGActionType.recreate) →
      ∃ c ∈ t, GatewayCall.isDeleteASGOf b.name c = true := by
  intro actions
  induction actions with
  | nil =>
    intro t b _ hb _
    cases hb
  | cons action rest ih =>
    intro t b h hb hbact
    unfold asgDeletePass at h
    by_cases hcond : (action.action == ASGActionType.delete
        || action.action == ASGActionType.recreate) = true
    · rw [if_pos hcond] at h
      cases hid : action.existingID with
      | none => rw [hid] at h; simp at h
      | some id =>
        rw [hid] at h
        cases hrec : asgDeletePass rest with
        | error e => rw [hrec] at h; simp at h
        | ok t2 =>
          rw [hrec] at h
          cases h
          rcases List.mem_cons.1 hb with rfl | hb2
          · exact ⟨GatewayCall.deleteASG b.name id,
              List.mem_cons_self _ _, by simp [GatewayCall.isDeleteASGOf]⟩
          · rcases ih t2 b hrec hb2 hbact with ⟨c, hct, hcp⟩
            exact ⟨c, List.mem_cons_of_mem _ hct, hcp⟩
    · rw [if_neg hcond] at h
      rcases List.mem_cons.1 hb with rfl | hb2
      · rcases hbact with hba | hba <;> simp [hba] at hcond
      · exact ih t b h hb2 hbact

theorem asgCreatePass_shape :
    ∀ (desiredByName : List (String × AutoScalingGroupConfig))
      (actions : List ASGAction) (t : List GatewayCall),
      asgCreatePass desiredByName actions = .ok t →
      ∀ c ∈ t, ∃ n, c = GatewayCall.createASG n := by
  intro desiredByName actions
  induction actions with
  | nil =>
    intro t h c hc
    unfold asgCreatePass at h
    cases h
    cases hc
  | cons action rest ih =>
    intro t h c hc
    unfold asgCreatePass at h
    by_cases hcond : (action.action == ASGActionType.create
        || action.action == ASGActionType.recreate) = true
    · rw [if_pos hcond] at h
      cases hlk : goLookup desiredByName action.name with
      | none => rw [hlk] at h; simp at h
      | some cfg =>
        rw [hlk] at h
        cases hrec : asgCreatePass desiredByName rest with
        | error e => rw [hrec] at h; simp at h
        | ok t2 =>
          rw [hrec] at h
          cases h
          rcases List.mem_cons.1 hc with rfl | hc2
          · exact ⟨_, rfl⟩
          · exact ih t2 hrec c hc2
    · rw [if_neg hcond] at h
      exact ih t h c hc

theorem asgCreatePass_emits :
    ∀ (desiredByName : List (String × AutoScalingGroupConfig))
      (actions : List ASGAction) (t : List GatewayCall) (b : ASGAction),
      asgCreatePass desiredByName actions = .ok t → b ∈ actions →
      (b.action = ASGActionType.create ∨ b.action = ASGActionType.recreate) →
      ∃ c ∈ t, GatewayCall.isCreateASGOf b.name c = true := by
  intro desiredByName actions
  induction actions with
  | nil =>
    intro t b _ hb _
    cases hb
  | cons action rest ih =>
    intro t b h hb hbact
    unfold asgCreatePass at h
    by_cases hcond : (action.action == ASGActionType.create
        || action.action == ASGActionType.recreate) = true
    · rw [if_pos hcond] at h
      cases hlk : goLookup desiredByName action.name with
      | none => rw [hlk] at h; simp at h
      | some cfg =>
        rw [hlk] at h
        cases hrec : asgCreatePass desiredByName rest with
        | error e => rw [hrec] at h; simp at h
        | ok t2 =>
          rw [hrec] at h
          cases h
          rcases List.mem_cons.1 hb with rfl | hb2
          · exact ⟨GatewayCall.createASG b.name,
              List.mem_cons_self _ _, by simp [GatewayCall.isCreateASGOf]⟩
          · rcases ih t2 b hrec hb2 hbact with ⟨c, hct, hcp⟩
            exact ⟨c, List.mem_cons_of_mem _ hct, hcp⟩
    · rw [if_neg hcond] at h
      rcases List.mem_cons.1 hb with rfl | hb2
      · rcases hbact with hba | hba <;> simp [hba] at hcond
      · exact ih t b h hb2 hbact

theorem lbCreatePass_shape :
    ∀ (desiredByKey : List (String × LoadBalancerConfig))
      (asgNameToID : List (String × String))
      (actions : List LBAction) (t : List GatewayCall),
      lbCreatePass desiredByKey asgNameToID actions = .ok t →
      ∀ c ∈ t, ∃ a l ai, c = GatewayCall.createLB a l ai := by
  intro desiredByKey asgNameToID actions
  induction actions with
  | nil =>
    intro t h c hc
    unfold lbCreatePass at h
    cases h
    cases hc
  | cons action rest ih =>
    intro t h c hc
    unfold lbCreatePass at h
    by_cases hcond : (action.action == LBActionType.create
        || action.action == LBActionType.recreate) = true
    · rw [if_pos hcond] at h
      cases hlk : goLookup desiredByKey (action.asgName ++ "/" ++ action.name) with
      | none => rw [hlk] at h; simp at h
      | some cfg =>
        rw [hlk] at h
        cases hlk2 : goLookup asgNameToID action.asgName with
        | none => rw [hlk2] at h; simp at h
        | some asgID =>
          rw [hlk2] at h
          cases hrec : lbCreatePass desiredByKey asgNameToID rest with
          | error e => rw [hrec] at h; simp at h
          | ok t2 =>
            rw [hrec] at h
            cases h
            rcases List.mem_cons.1 hc with rfl | hc2
            · exact ⟨_, _, _, rfl⟩
            · exact ih t2 hrec c hc2
    · rw [if_neg hcond] at h
      exact ih t h c hc

theorem lbCreatePass_emits :
    ∀ (desiredByKey : List (String × LoadBalancerConfig))
      (asgNameToID : List (String × String))
      (actions : List LBAction) (t : List GatewayCall) (b : LBAction),
      lbCreatePass desiredByKey asgNameToID actions = .ok t → b ∈ actions →
      (b.action = LBActionType.create ∨ b.action = LBActionType.recreate) →
      ∃ c ∈ t, GatewayCall.isCreateLBOf b.asgName b.name c = true := by
  intro desiredByKey asgNameToID actions
  induction actions with
  | nil =>
    intro t b _ hb _
    cases hb
  | cons action rest ih =>
    intro t b h hb hbact
    unfold lbCreatePass at h
    by_cases hcond : (action.action == LBActionType.create
        || action.action == LBActionType.recreate) = true
    · rw [if_pos hcond] at h
      cases hlk : goLookup desiredByKey (action.asgName ++ "/" ++ action.name) with
      | none => rw [hlk] at h; simp at h
      | some cfg =>
        rw [hlk] at h
        cases hlk2 : goLookup asgNameToID action.asgName with
        | none => rw [hlk2] at h; simp at h
        | some asgID =>
          rw [hlk2] at h
          cases hrec : lbCreatePass desiredByKey asgNameToID rest with
          | error e => rw [hrec] at h; simp at h
          | ok t2 =>
            rw [hrec] at h
            cases h
            rcases List.mem_cons.1 hb with rfl | hb2
            · exact ⟨GatewayCall.createLB b.asgName b.name asgID,
                List.mem_cons_self _ _, by simp [GatewayCall.isCreateLBOf]⟩
            · rcases ih t2 b hrec hb2 hbact with ⟨c, hct, hcp⟩
              exact ⟨c, List.mem_cons_of_mem _ hct, hcp⟩
    · rw [if_neg hcond] at h
      rcases List.mem_cons.1 hb with rfl | hb2
      · rcases hbact with hba | hba <;> simp [hba] at hcond
      · exact ih t b h hb2 hbact

theorem infraCall_not_delete_and_create (c : GatewayCall) :
    c.isInfraDelete = true → c.isInfraCreate = true → False := by
  intro h1 h2
  cases c <;> simp [GatewayCall.isInfraDelete, GatewayCall.isInfraCreate] at h1 h2

theorem deletes_before_creates (D C : List GatewayCall)
    (hD : ∀ c ∈ D, c.isInfraDelete = true)
    (hC : ∀ c ∈ C, c.isInfraCreate = true) :
    ∀ (i j : Nat) (ci cj : GatewayCall),
      (D ++ C).get? i = some ci → (D ++ C).get? j = some cj →
      ci.isInfraDelete = true → cj.isInfraCreate = true → i < j := by
  intro i j ci cj hi hj hdel hcre
  have hiD : i < D.length := by
    by_contra hge
    push_neg at hge
    rw [List.get?_append_right hge] at hi
    exact infraCall_not_delete_and_create ci hdel (hC ci (List.get?_mem hi))
  have hjD : D.length ≤ j := by
    by_contra hlt
    push_neg at hlt
    rw [List.get?_append hlt] at hj
    exact infraCall_not_delete_and_create cj (hD cj (List.get?_mem hj)) hcre
  omega

theorem callBefore_of_append (t1 t2 : List GatewayCall)
    (p q : GatewayCall → Bool)
    (h1 : ∃ c ∈ t1, p c = true) (h2 : ∃ c ∈ t2, q c = true) :
    callBefore (t1 ++ t2) p q := by
  rcases h1 with ⟨c1, hc1, hp⟩
  rcases h2 with ⟨c2, hc2, hq⟩
  rcases List.get?_of_mem hc1 with ⟨i, hi⟩
  rcases List.get?_of_mem hc2 with ⟨j, hj⟩
  have hiL : i < t1.length := by
    rcases List.get?_eq_some.1 hi with ⟨hl, _⟩
    exact hl
  refine ⟨i, t1.length + j, by omega, ⟨c1, ?_, hp⟩, ⟨c2, ?_, hq⟩⟩
  · rw [List.get?_append hiL]
    exact hi
  · rw [List.get?_append_right (by omega)]
    simpa using hj

theorem applyASGChanges_ok_decomp (actions : List ASGAction)
    (desired : List AutoScalingGroupConfig) (t : List GatewayCall)
    (h : applyASGChanges actions desired = .ok t) :
    ∃ d c, asgDeletePass actions = .ok d
      ∧ asgCreatePass (goMapOfList desired (fun c => c.name)) actions = .ok c
      ∧ t = d ++ c := by
  simp only [applyASGChanges] at h
  cases h1 : asgDeletePass actions with
  | error e => rw [h1] at h; simp at h
  | ok d =>
    rw [h1] at h
    cases h2 : asgCreatePass (goMapOfList desired (fun c => c.name)) actions with
    | error e => rw [h2] at h; simp at h
    | ok c =>
      rw [h2] at h
      cases h
      exact ⟨d, c, rfl, rfl, rfl⟩

theorem applyLBChanges_ok_decomp (actions : List LBAction)
    (desired : List LoadBalancerConfig) (asgNameToID : List (String × String))
    (t : List GatewayCall)
    (h : applyLBChanges actions desired asgNameToID = .ok t) :
    ∃ d c, lbDeletePass actions = .ok d
      ∧ lbCreatePass (lbDesiredByKey desired) asgNameToID actions = .ok c
      ∧ t = d ++ c := by
  unfold applyLBChanges at h
  cases h1 : lbDeletePass actions with
  | error e => rw [h1] at h; simp at h
  | ok d =>
    rw [h1] at h
    cases h2 : lbCreatePass (lbDesiredByKey desired) asgNameToID actions with
    | error e => rw [h2] at h; simp at h
    | ok c =>
      rw [h2] at h
      cases h
      exact ⟨d, c, rfl, rfl, rfl⟩

theorem applyInfraStages_ok_decomp (asgActions : List ASGAction)
    (lbActions : List LBAction) (asgDesired : List AutoScalingGroupConfig)
    (lbDesired : List LoadBalancerConfig)
    (asgNameToID : List (String × String)) (t : List GatewayCall)
    (h : applyInfraStages asgActions lbActions asgDesired lbDesired asgNameToID
          = .ok t) :
    ∃ d1 d2 c1 c2, lbDeletePass lbActions = .ok d1
      ∧ asgDeletePass asgActions = .ok d2
      ∧ asgCreatePass (goMapOfList asgDesired (fun c => c.name)) asgActions = .ok c1
      ∧ lbCreatePass (lbDesiredByKey lbDesired) asgNameToID lbActions = .ok c2
      ∧ t = d1 ++ d2 ++ c1 ++ c2 := by
  unfold applyInfraStages at h
  cases h1 : lbDeletePass lbActions with
  | error e => rw [h1] at h; simp at h
  | ok d1 =>
    rw [h1] at h
    cases h2 : asgDeletePass asgActions with
    | error e => rw [h2] at h; simp at h
    | ok d2 =>
      rw [h2] at h
      cases h3 : asgCreatePass (goMapOfList asgDesired (fun c => c.name)) asgActions with
      | error e => rw [h3] at h; simp at h
      | ok c1 =>
        rw [h3] at h
        cases h4 : lbCreatePass (lbDesiredByKey lbDesired) asgNameToID lbActions with
        | error e => rw [h4] at h; simp at h
        | ok c2 =>
          rw [h4] at h
          cases h
          exact ⟨d1, d2, c1, c2, rfl, rfl, rfl, rfl, rfl⟩

/-- C3: for every action list, the ASG and LB executors issue every
delete call (for Delete/Recreate actions) before any create call (for
Create/Recreate actions) and never issue an in-place update call; and
across kinds, the stage coordinator (modelled from the spec) deletes a
Recreate LoadBalancer before its Recreate owning ASG and creates the
ASG before the LoadBalancer, regardless of action order. -/
theorem C3_delete_before_create_ordering :
    (∀ (actions : List ASGAction) (desired : List AutoScalingGroupConfig)
        (t : List GatewayCall),
        applyASGChanges actions desired = .ok t →
        (∀ c ∈ t, c.isInfraUpdate = false)
        ∧ (∀ (i j : Nat) (ci cj : GatewayCall),
            t.get? i = some ci → t.get? j = some cj →
            ci.isInfraDelete = true → cj.isInfraCreate = true → i < j)
        ∧ (∀ b ∈ actions,
            (b.action = ASGActionType.delete ∨ b.action = ASGActionType.recreate) →
            ∃ c ∈ t, GatewayCall.isDeleteASGOf b.name c = true)
        ∧ (∀ b ∈ actions,
            (b.action = ASGActionType.create ∨ b.action = ASGActionType.recreate) →
            ∃ c ∈ t, GatewayCall.isCreateASGOf b.name c = true))
    ∧ (∀ (actions : List LBAction) (desired : List LoadBalancerConfig)
        (asgNameToID : List (String × String)) (t : List GatewayCall),
        applyLBChanges actions desired asgNameToID = .ok t →
        (∀ c ∈ t, c.isInfraUpdate = false)
        ∧ (∀ (i j : Nat) (ci cj : GatewayCall),
            t.get? i = some ci → t.get? j = some cj →
            ci.isInfraDelete = true → cj.isInfraCreate = true → i < j)
        ∧ (∀ b ∈ actions,
            (b.action = LBActionType.delete ∨ b.action = LBActionType.recreate) →
            ∃ c ∈ t, GatewayCall.isDeleteLBOf b.asgName b.name c = true)
        ∧ (∀ b ∈ actions,
            (b.action = LBActionType.create ∨ b.action = LBActionType.recreate) →
            ∃ c ∈ t, GatewayCall.isCreateLBOf b.asgName b.name c = true))
    ∧ (∀ (asgActions : List ASGAction) (lbActions : List LBAction)
        (asgDesired : List AutoScalingGroupConfig)
        (lbDesired : List LoadBalancerConfig)
        (asgNameToID : List (String × String)) (t : List GatewayCall),
        applyInfraStages asgActions lbActions asgDesired lbDesired asgNameToID
            = .ok t →
        (∀ c ∈ t, c.isInfraUpdate = false)
        ∧ (∀ (i j : Nat) (ci cj : GatewayCall),
            t.get? i = some ci → t.get? j = some cj →
            ci.isInfraDelete = true → cj.isInfraCreate = true → i < j)
        ∧ (∀ a ∈ asgActions, ∀ b ∈ lbActions,
            a.action = ASGActionType.recreate → b.action = LBActionType.recreate →
            b.asgName = a.name →
            callBefore t (GatewayCall.isDeleteLBOf b.asgName b.name)
                (GatewayCall.isDeleteASGOf a.name)
            ∧ callBefore t (GatewayCall.isCreateASGOf a.name)
                (GatewayCall.isCreateLBOf b.asgName b.name))) := by
  refine ⟨?_, ?_, ?_⟩
  · intro actions desired t h
    rcases applyASGChanges_ok_decomp actions desired t h with ⟨d, c, hd, hc, rfl⟩
    have hDel : ∀ x ∈ d, x.isInfraDelete = true := by
      intro x hx
      rcases asgDeletePass_shape actions d hd x hx with ⟨n, i, rfl⟩
      rfl
    have hCre : ∀ x ∈ c, x.isInfraCreate = true := by
      intro x hx
      rcases asgCreatePass_shape _ actions c hc x hx with ⟨n, rfl⟩
      rfl
    refine ⟨?_, deletes_before_creates d c hDel hCre, ?_, ?_⟩
    · intro x hx
      rcases List.mem_append.1 hx with hx | hx
      · rcases asgDeletePass_shape actions d hd x hx with ⟨n, i, rfl⟩
        rfl
      · rcases asgCreatePass_shape _ actions c hc x hx with ⟨n, rfl⟩
        rfl
    · intro b hb hbact
      rcases asgDeletePass_emits actions d b hd hb hbact with ⟨x, hx, hp⟩
      exact ⟨x, List.mem_append_left c hx, hp⟩
    · intro b hb hbact
      rcases asgCreatePass_emits _ actions c b hc hb hbact with ⟨x, hx, hp⟩
      exact ⟨x, List.mem_append_right d hx, hp⟩
  · intro actions desired asgNameToID t h
    rcases applyLBChanges_ok_decomp actions desired asgNameToID t h with
      ⟨d, c, hd, hc, rfl⟩
    have hDel : ∀ x ∈ d, x.isInfraDelete = true := by
      intro x hx
      rcases lbDeletePass_shape actions d hd x hx with ⟨a, l, ai, li, rfl⟩
      rfl
    have hCre : ∀ x ∈ c, x.isInfraCreate = true := by
      intro x hx
      rcases lbCreatePass_shape _ _ actions c hc x hx with ⟨a, l, ai, rfl⟩
      rfl
    refine ⟨?_, deletes_before_creates d c hDel hCre, ?_, ?_⟩
    · intro x hx
      rcases List.mem_append.1 hx with hx | hx
      · rcases lbDeletePass_shape actions d hd x hx with ⟨a, l, ai, li, rfl⟩
        rfl
      · rcases lbCreatePass_shape _ _ actions c hc x hx with ⟨a, l, ai, rfl⟩
        rfl
    · intro b hb hbact
      rcases lbDeletePass_emits actions d b hd hb hbact with ⟨x, hx, hp⟩
      exact ⟨x, List.mem_append_left c hx, hp⟩
    · intro b hb hbact
      rcases lbCreatePass_emits _ _ actions c b hc hb hbact with ⟨x, hx, hp⟩
      exact ⟨x, List.mem_append_right d hx, hp⟩
  · intro asgActions lbActions asgDesired lbDesired asgNameToID t h
    rcases applyInfraStages_ok_decomp asgActions lbActions asgDesired lbDesired
      asgNameToID t h with ⟨d1, d2, c1, c2, h1, h2, h3, h4, rfl⟩
    have hD1 : ∀ x ∈ d1, ∃ a l ai li, x = GatewayCall.deleteLB a l ai li :=
      lbDeletePass_shape lbActions d1 h1
    have hD2 : ∀ x ∈ d2, ∃ n i, x = GatewayCall.deleteASG n i :=
      asgDeletePass_shape asgActions d2 h2
    have hC1 : ∀ x ∈ c1, ∃ n, x = GatewayCall.createASG n :=
      asgCreatePass_shape _ asgActions c1 h3
    have hC2 : ∀ x ∈ c2, ∃ a l ai, x = GatewayCall.createLB a l ai :=
      lbCreatePass_shape _ _ lbActions c2 h4
    refine ⟨?_, ?_, ?_⟩
    · intro x hx
      rcases List.mem_append.1 hx with hx | hx
      · rcases List.mem_append.1 hx with hx | hx
        · rcases List.mem_append.1 hx with hx | hx
          · rcases hD1 x hx with ⟨a, l, ai, li, rfl⟩; rfl
          · rcases hD2 x hx with ⟨n, i, rfl⟩; rfl
        · rcases hC1 x hx with ⟨n, rfl⟩; rfl
      · rcases hC2 x hx with ⟨a, l, ai, rfl⟩; rfl
    · have hassoc : d1 ++ d2 ++ c1 ++ c2 = (d1 ++ d2) ++ (c1 ++ c2) := by
        simp [List.append_assoc]
      rw [hassoc]
      apply deletes_before_creates
      · intro x hx
        rcases List.mem_append.1 hx with hx | hx
        · rcases hD1 x hx with ⟨a, l, ai, li, rfl⟩; rfl
        · rcases hD2 x hx with ⟨n, i, rfl⟩; rfl
      · intro x hx
        rcases List.mem_append.1 hx with hx | hx
        · rcases hC1 x hx with ⟨n, rfl⟩; rfl
        · rcases hC2 x hx with ⟨a, l, ai, rfl⟩; rfl
    · intro a ha b hb haact hbact hown
      constructor
      · have he1 := lbDeletePass_emits lbActions d1 b h1 hb (Or.inr hbact)
        have he2 := asgDeletePass_emits asgActions d2 a h2 ha (Or.inr haact)
        have hassoc : d1 ++ d2 ++ c1 ++ c2 = d1 ++ (d2 ++ (c1 ++ c2)) := by
          simp [List.append_assoc]
        rw [hassoc]
        apply callBefore_of_append
        · exact he1
        · rcases he2 with ⟨x, hx, hp⟩
          exact ⟨x, List.mem_append_left _ hx, hp⟩
      · have he3 := asgCreatePass_emits _ asgActions c1 a h3 ha (Or.inr haact)
        have he4 := lbCreatePass_emits _ _ lbActions c2 b h4 hb (Or.inr hbact)
        have hassoc : d1 ++ d2 ++ c1 ++ c2 = (d1 ++ d2 ++ c1) ++ c2 := by
          simp [List.append_assoc]
        rw [hassoc]
        apply callBefore_of_append
        · rcases he3 with ⟨x, hx, hp⟩
          exact ⟨x, List.mem_append_right _ hx, hp⟩
        · exact he4

/-- Witness for C3: a Recreate ASG and its Recreate LoadBalancer at
concrete inputs — the coordinator's trace deletes the LB first and
creates it last. -/
theorem C3_witness :
    callBefore
      [GatewayCall.deleteLB "asg1" "lb1" "asg-id-1" "lb-id-1",
       GatewayCall.deleteASG "asg1" "asg-id-1",
       GatewayCall.createASG "asg1",
       GatewayCall.createLB "asg1" "lb1" "asg-id-1"]
      (GatewayCall.isDeleteLBOf "asg1" "lb1")
      (GatewayCall.isDeleteASGOf "asg1")
    ∧ callBefore
      [GatewayCall.deleteLB "asg1" "lb1" "asg-id-1" "lb-id-1",
       GatewayCall.deleteASG "asg1" "asg-id-1",
       GatewayCall.createASG "asg1",
       GatewayCall.createLB "asg1" "lb1" "asg-id-1"]
      (GatewayCall.isCreateASGOf "asg1")
      (GatewayCall.isCreateLBOf "asg1" "lb1") :=
  (C3_delete_before_create_ordering.2.2 [fixtureRecreateASGAction]
      [fixtureRecreateLBAction] [fixtureASGConfig] [fixtureLBConfig]
      [("asg1", "asg-id-1")]
      [GatewayCall.deleteLB "asg1" "lb1" "asg-id-1" "lb-id-1",
       GatewayCall.deleteASG "asg1" "asg-id-1",
       GatewayCall.createASG "asg1",
       GatewayCall.createLB "asg1" "lb1" "asg-id-1"]
      (by rfl)).2.2 fixtureRecreateASGAction (List.mem_singleton.2 rfl)
      fixtureRecreateLBAction (List.mem_singleton.2 rfl) rfl rfl rfl

/-! ## C9 and C10: the application apply executor -/

theorem goLookup_overwriteMap_ne {α : Type} (m : List (String × α))
    (k' k : String) (v : α) (h : (k' == k) = false) :
    goLookup (m.map (fun p => if p.1 == k' then (k', v) else p)) k
      = goLookup m k := by
  induction m with
  | nil => simp [goLookup]
  | cons p rest ih =>
    by_cases h1 : p.1 == k' <;> by_cases h3 : p.1 == k <;>
      cases h2 : goLookup rest k <;>
      simp_all [goLookup, List.map]

theorem goLookup_goInsert_ne {α : Type} (m : List (String × α))
    (k' k : String) (v : α) (h : (k' == k) = false) :
    goLookup (goInsert m k' v) k = goLookup m k := by
  unfold goInsert
  by_cases hl : (goLookup m k').isSome
  · rw [if_pos hl]
    exact goLookup_overwriteMap_ne m k' k v h
  · rw [if_neg hl, goLookup_append, goLookup_singleton,
      if_neg (by simp_all)]

theorem goLookup_goMapOfList_none {α : Type} (xs : List α) (key : α → String)
    (k : String) (h : k ∉ xs.map key) :
    goLookup (goMapOfList xs key) k = none := by
  have haux : ∀ (m : List (String × α)), goLookup m k = none →
      goLookup (xs.foldl (fun m a => goInsert m (key a) a) m) k = none := by
    induction xs with
    | nil => intro m hm; exact hm
    | cons a rest ih =>
      intro m hm
      have hk : (key a == k) = false := by
        simp only [beq_eq_false_iff_ne, ne_eq]
        intro heq
        exact h (by simp [heq])
      have h2 : k ∉ rest.map key := fun hr => h (by simp [hr])
      simp only [List.foldl_cons]
      have := ih (fun hr => h (List.mem_cons_of_mem _ hr)) (goInsert m (key a) a)
        (by rw [goLookup_goInsert_ne m (key a) k a hk]; exact hm)
      exact this
  exact haux [] rfl

theorem getLatestVersionCalls_no_activation (env : ApplyEnv) (n : String) :
    ∀ c ∈ (getLatestVersionCalls env n).1, c.isActivation = false := by
  intro c hc
  unfold getLatestVersionCalls at hc
  by_cases hf : env.fails (GatewayCall.listAppVersions n)
  · simp only [hf, if_true] at hc
    rcases List.mem_singleton.1 hc with rfl
    rfl
  · simp only [hf, Bool.false_eq_true, if_false] at hc
    cases hl : env.latest n with
    | none =>
      rw [hl] at hc
      rcases List.mem_singleton.1 hc with rfl
      rfl
    | some d =>
      rw [hl] at hc
      by_cases hf2 : env.fails (GatewayCall.getAppVersion n d.version) <;>
        simp only [hf2, if_true, Bool.false_eq_true, if_false] at hc <;>
        rcases List.mem_cons.1 hc with rfl | hc2 <;>
        first
          | rfl
          | (rcases List.mem_singleton.1 hc2 with rfl; rfl)

theorem createApplicationCalls_no_activation (env : ApplyEnv)
    (appCfg : ApplicationConfig) :
    ∀ c ∈ (createApplicationCalls env appCfg ⟨false⟩).1,
      c.isActivation = false := by
  intro c hc
  unfold createApplicationCalls at hc
  by_cases h1 : env.fails (GatewayCall.createApp appCfg.name)
  · simp only [h1, if_true] at hc
    rcases List.mem_singleton.1 hc with rfl
    rfl
  · simp only [h1, Bool.false_eq_true, if_false] at hc
    by_cases h2 : env.fails (GatewayCall.createAppVersion appCfg.name
        (buildCreateVersionRequest appCfg.spec)) <;>
      simp only [h2, if_true, Bool.false_eq_true, if_false] at hc <;>
      rcases List.mem_cons.1 hc with rfl | hc2 <;>
      first
        | rfl
        | (rcases List.mem_singleton.1 hc2 with rfl; rfl)

theorem updateApplicationCalls_no_activation (env : ApplyEnv)
    (appCfg : ApplicationConfig) :
    ∀ c ∈ (updateApplicationCalls env appCfg ⟨false⟩).1,
      c.isActivation = false := by
  intro c hc
  unfold updateApplicationCalls at hc
  rcases hg : getLatestVersionCalls env appCfg.name with ⟨gcalls, res⟩
  rw [hg] at hc
  cases res with
  | none =>
    exact getLatestVersionCalls_no_activation env appCfg.name c (by rw [hg]; exact hc)
  | some latestVersion =>
    by_cases h2 : env.fails (GatewayCall.createAppVersion appCfg.name
        (buildCreateVersionRequestWithBase appCfg.spec latestVersion)) <;>
      simp only [h2, if_true, Bool.false_eq_true, if_false] at hc <;>
      rcases List.mem_append.1 hc with hc2 | hc2
    · exact getLatestVersionCalls_no_activation env appCfg.name c
        (by rw [hg]; exact hc2)
    · rcases List.mem_singleton.1 hc2 with rfl; rfl
    · exact getLatestVersionCalls_no_activation env appCfg.name c
        (by rw [hg]; exact hc2)
    · rcases List.mem_singleton.1 hc2 with rfl; rfl

theorem runApplyActions_no_activation (env : ApplyEnv)
    (cfgByName : List (String × ApplicationConfig)) :
    ∀ (actions : List PlannedAction) (st : State) (m : Bool),
      ∀ c ∈ (runApplyActions env cfgByName ⟨false⟩ actions st m).1,
        c.isActivation = false := by
  intro actions
  induction actions with
  | nil =>
    intro st m c hc
    cases hc
  | cons action rest ih =>
    intro st m c hc
    unfold runApplyActions at hc
    cases hlk : goLookup cfgByName action.applicationName with
    | none =>
      simp only [hlk] at hc
      exact ih st m c hc
    | some appCfg =>
      simp only [hlk] at hc
      cases haction : action.action with
      | noop =>
        simp only [haction] at hc
        exact ih st m c hc
      | create =>
        simp only [haction] at hc
        rcases hcc : createApplicationCalls env appCfg ⟨false⟩ with ⟨calls0, err0⟩
        simp only [hcc] at hc
        cases err0 with
        | some e =>
          exact createApplicationCalls_no_activation env appCfg c
            (by simp only [hcc]; exact hc)
        | none =>
          rcases hac : afterCreateState st m appCfg with ⟨st2, m2⟩
          simp only [hac] at hc
          rcases hrr : runApplyActions env cfgByName ⟨false⟩ rest st2 m2 with
            ⟨calls1, st3, m3, err1⟩
          simp only [hrr] at hc
          rcases List.mem_append.1 hc with hc2 | hc2
          · exact createApplicationCalls_no_activation env appCfg c
              (by simp only [hcc]; exact hc2)
          · exact ih st2 m2 c (by simp only [hrr]; exact hc2)
      | update =>
        simp only [haction] at hc
        rcases hcc : updateApplicationCalls env appCfg ⟨false⟩ with ⟨calls0, err0⟩
        simp only [hcc] at hc
        cases err0 with
        | some e =>
          exact updateApplicationCalls_no_activation env appCfg c
            (by simp only [hcc]; exact hc)
        | none =>
          rcases hac : afterUpdateState st m appCfg with ⟨st2, m2⟩
          simp only [hac] at hc
          rcases hrr : runApplyActions env cfgByName ⟨false⟩ rest st2 m2 with
            ⟨calls1, st3, m3, err1⟩
          simp only [hrr] at hc
          rcases List.mem_append.1 hc with hc2 | hc2
          · exact updateApplicationCalls_no_activation env appCfg c
              (by simp only [hcc]; exact hc2)
          · exact ih st2 m2 c (by simp only [hrr]; exact hc2)

theorem runCallsOnPointers_id (pointers : String → Option Int)
    (calls : List GatewayCall)
    (h : ∀ c ∈ calls, c.isActivation = false) :
    runCallsOnPointers pointers calls = pointers := by
  induction calls generalizing pointers with
  | nil => rfl
  | cons c rest ih =>
    have hc : applyCallToPointers pointers c = pointers := by
      cases c <;> first
        | rfl
        | exact absurd (h _ (List.mem_cons_self _ _)) (by simp [GatewayCall.isActivation])
    unfold runCallsOnPointers
    rw [List.foldl_cons, hc]
    exact ih pointers (fun c hc2 => h c (List.mem_cons_of_mem _ hc2))

theorem goLookup_mem {α : Type} :
    ∀ (m : List (String × α)) (k : String) (v : α),
      goLookup m k = some v → (k, v) ∈ m := by
  intro m
  induction m with
  | nil => intro k v h; cases h
  | cons p rest ih =>
    intro k v h
    unfold goLookup at h
    cases h2 : goLookup rest k with
    | some w =>
      rw [h2] at h
      cases h
      exact List.mem_cons_of_mem _ (ih k v h2)
    | none =>
      rw [h2] at h
      by_cases h3 : (p.1 == k) = true
      · rw [if_pos h3] at h
        cases h
        have hk : p.1 = k := by simpa using h3
        subst hk
        exact List.mem_cons_self p rest
      · rw [if_neg h3] at h
        cases h

theorem goMapOfList_entry_key {α : Type} (xs : List α) (key : α → String) :
    ∀ p ∈ goMapOfList xs key, p.1 = key p.2 := by
  have haux : ∀ (m : List (String × α)), (∀ p ∈ m, p.1 = key p.2) →
      ∀ p ∈ xs.foldl (fun m a => goInsert m (key a) a) m, p.1 = key p.2 := by
    induction xs with
    | nil => intro m hm p hp; exact hm p hp
    | cons a rest ih =>
      intro m hm p hp
      simp only [List.foldl_cons] at hp
      refine ih (goInsert m (key a) a) ?_ p hp
      intro q hq
      unfold goInsert at hq
      by_cases hl : (goLookup m (key a)).isSome
      · rw [if_pos hl] at hq
        rcases List.mem_map.1 hq with ⟨r, hr, rfl⟩
        by_cases hrk : (r.1 == key a) = true
        · simp only [hrk, if_true]
        · simp only [hrk, Bool.false_eq_true, if_false]
          exact hm r hr
      · rw [if_neg hl] at hq
        rcases List.mem_append.1 hq with hq | hq
        · exact hm q hq
        · rcases List.mem_singleton.1 hq with rfl
          rfl
  exact haux [] (by intro p hp; cases hp)

theorem goLookup_goMapOfList_key {α : Type} (xs : List α) (key : α → String)
    (k : String) (v : α) (h : goLookup (goMapOfList xs key) k = some v) :
    key v = k :=
  (goMapOfList_entry_key xs key (k, v) (goLookup_mem _ k v h)).symm

theorem goLookup_goInsert_isSome_mono {α : Type} (m : List (String × α))
    (k' k : String) (v : α) (h : (goLookup m k).isSome = true) :
    (goLookup (goInsert m k' v) k).isSome = true := by
  by_cases hk : (k' == k) = true
  · have hk2 : k' = k := by simpa using hk
    subst hk2
    rw [goLookup_goInsert_self]
    rfl
  · rw [goLookup_goInsert_ne m k' k v (by simpa using hk)]
    exact h

theorem goLookup_goMapOfList_isSome {α : Type} (xs : List α)
    (key : α → String) (k : String) (h : k ∈ xs.map key) :
    (goLookup (goMapOfList xs key) k).isSome = true := by
  have haux : ∀ (ys : List α) (m : List (String × α)),
      (k ∈ ys.map key ∨ (goLookup m k).isSome = true) →
      (goLookup (ys.foldl (fun m a => goInsert m (key a) a) m) k).isSome
        = true := by
    intro ys
    induction ys with
    | nil =>
      intro m hm
      rcases hm with hm | hm
      · cases hm
      · exact hm
    | cons a rest ih =>
      intro m hm
      simp only [List.foldl_cons]
      apply ih
      rcases hm with hm | hm
      · rw [List.map_cons] at hm
        rcases List.mem_cons.1 hm with heq | hmem
        · right
          rw [heq, goLookup_goInsert_self]
          rfl
        · exact Or.inl hmem
      · right
        exact goLookup_goInsert_isSome_mono m (key a) k a hm
  exact haux xs [] (Or.inl h)

theorem createApplicationCalls_activates (env : ApplyEnv)
    (appCfg : ApplicationConfig)
    (h : (createApplicationCalls env appCfg ⟨true⟩).2 = none) :
    GatewayCall.updateAppActiveVersion appCfg.name (env.assigned appCfg.name)
      ∈ (createApplicationCalls env appCfg ⟨true⟩).1 := by
  unfold createApplicationCalls at h ⊢
  by_cases h1 : env.fails (GatewayCall.createApp appCfg.name)
  · simp [h1] at h
  · simp only [h1, Bool.false_eq_true, if_false] at h ⊢
    by_cases h2 : env.fails (GatewayCall.createAppVersion appCfg.name
        (buildCreateVersionRequest appCfg.spec))
    · simp [h2] at h
    · simp only [h2, Bool.false_eq_true, if_false] at h ⊢
      by_cases h3 : env.fails (GatewayCall.updateAppActiveVersion appCfg.name
          (env.assigned appCfg.name))
      · simp [h3] at h
      · simp only [h3, Bool.false_eq_true, if_false, if_true]
        simp

theorem updateApplicationCalls_activates (env : ApplyEnv)
    (appCfg : ApplicationConfig)
    (h : (updateApplicationCalls env appCfg ⟨true⟩).2 = none) :
    GatewayCall.updateAppActiveVersion appCfg.name (env.assigned appCfg.name)
      ∈ (updateApplicationCalls env appCfg ⟨true⟩).1 := by
  unfold updateApplicationCalls at h ⊢
  rcases hg : getLatestVersionCalls env appCfg.name with ⟨gcalls, res⟩
  simp only [hg] at h
  cases res with
  | none => simp at h
  | some latestVersion =>
    by_cases h2 : env.fails (GatewayCall.createAppVersion appCfg.name
        (buildCreateVersionRequestWithBase appCfg.spec latestVersion))
    · simp [h2] at h
    · simp only [h2, Bool.false_eq_true, if_false, if_true] at h ⊢
      by_cases h3 : env.fails (GatewayCall.updateAppActiveVersion appCfg.name
          (env.assigned appCfg.name))
      · simp [h3] at h
      · simp only [h3, Bool.false_eq_true, if_false]
        simp

theorem runApplyActions_activates (env : ApplyEnv)
    (cfgByName : List (String × ApplicationConfig)) :
    ∀ (actions : List PlannedAction) (st : State) (m : Bool)
      (action : PlannedAction) (appCfg : ApplicationConfig),
      (runApplyActions env cfgByName ⟨true⟩ actions st m).2.2.2 = none →
      action ∈ actions →
      (action.action = ActionType.create ∨ action.action = ActionType.update) →
      goLookup cfgByName action.applicationName = some appCfg →
      GatewayCall.updateAppActiveVersion appCfg.name (env.assigned appCfg.name)
        ∈ (runApplyActions env cfgByName ⟨true⟩ actions st m).1 := by
  intro actions
  induction actions with
  | nil =>
    intro st m action appCfg _ hmem
    cases hmem
  | cons action0 rest ih =>
    intro st m action appCfg herr hmem hact hlk
    rcases List.mem_cons.1 hmem with rfl | hmem2
    · rcases hact with hact | hact
      all_goals (
        unfold runApplyActions at herr ⊢
        simp only [hlk, hact] at herr ⊢)
      · rcases hcc : createApplicationCalls env appCfg ⟨true⟩ with ⟨calls0, err0⟩
        simp only [hcc] at herr ⊢
        cases err0 with
        | some e => simp at herr
        | none =>
          rcases hac : afterCreateState st m appCfg with ⟨st2, m2⟩
          simp only [hac] at herr ⊢
          rcases hrr : runApplyActions env cfgByName ⟨true⟩ rest st2 m2 with
            ⟨calls1, st3, m3, err1⟩
          simp only [hrr] at herr ⊢
          apply List.mem_append_left
          have := createApplicationCalls_activates env appCfg (by rw [hcc])
          rw [hcc] at this
          exact this
      · rcases hcc : updateApplicationCalls env appCfg ⟨true⟩ with ⟨calls0, err0⟩
        simp only [hcc] at herr ⊢
        cases err0 with
        | some e => simp at herr
        | none =>
          rcases hac : afterUpdateState st m appCfg with ⟨st2, m2⟩
          simp only [hac] at herr ⊢
          rcases hrr : runApplyActions env cfgByName ⟨true⟩ rest st2 m2 with
            ⟨calls1, st3, m3, err1⟩
          simp only [hrr] at herr ⊢
          apply List.mem_append_left
          have := updateApplicationCalls_activates env appCfg (by rw [hcc])
          rw [hcc] at this
          exact this
    · unfold runApplyActions at herr ⊢
      cases hlk0 : goLookup cfgByName action0.applicationName with
      | none =>
        simp only [hlk0] at herr ⊢
        exact ih st m action appCfg herr hmem2 hact hlk
      | some appCfg0 =>
        simp only [hlk0] at herr ⊢
        cases haction0 : action0.action with
        | noop =>
          simp only [haction0] at herr ⊢
          exact ih st m action appCfg herr hmem2 hact hlk
        | create =>
          simp only [haction0] at herr ⊢
          rcases hcc : createApplicationCalls env appCfg0 ⟨true⟩ with ⟨calls0, err0⟩
          simp only [hcc] at herr ⊢
          cases err0 with
          | some e => simp at herr
          | none =>
            rcases hac : afterCreateState st m appCfg0 with ⟨st2, m2⟩
            simp only [hac] at herr ⊢
            rcases hrr : runApplyActions env cfgByName ⟨true⟩ rest st2 m2 with
              ⟨calls1, st3, m3, err1⟩
            simp only [hrr] at herr ⊢
            apply List.mem_append_right
            have := ih st2 m2 action appCfg (by rw [hrr]; exact herr) hmem2 hact hlk
            rw [hrr] at this
            exact this
        | update =>
          simp only [haction0] at herr ⊢
          rcases hcc : updateApplicationCalls env appCfg0 ⟨true⟩ with ⟨calls0, err0⟩
          simp only [hcc] at herr ⊢
          cases err0 with
          | some e => simp at herr
          | none =>
            rcases hac : afterUpdateState st m appCfg0 with ⟨st2, m2⟩
            simp only [hac] at herr ⊢
            rcases hrr : runApplyActions env cfgByName ⟨true⟩ rest st2 m2 with
              ⟨calls1, st3, m3, err1⟩
            simp only [hrr] at herr ⊢
            apply List.mem_append_right
            have := ih st2 m2 action appCfg (by rw [hrr]; exact herr) hmem2 hact hlk
            rw [hrr] at this
            exact this

/-- C9: with the activate option unset, Apply creates the planned
versions but never issues an update-application call that sets the
active version, leaving every application's active-version pointer
unchanged; with the option set, every executed create/update action is
followed by an activation call for the version the gateway assigned. -/
theorem C9_activation_only_when_requested :
    (∀ (env : ApplyEnv) (cfgApps : List ApplicationConfig)
        (actions : List PlannedAction) (st : State),
        (∀ c ∈ (applyPlan env cfgApps actions st ⟨false⟩).1,
          c.isActivation = false)
        ∧ (∀ pointers : String → Option Int,
            runCallsOnPointers pointers
              (applyPlan env cfgApps actions st ⟨false⟩).1 = pointers))
    ∧ (∀ (env : ApplyEnv) (cfgApps : List ApplicationConfig)
        (actions : List PlannedAction) (st : State) (action : PlannedAction),
        (applyPlan env cfgApps actions st ⟨true⟩).2.2.2 = none →
        action ∈ actions →
        (action.action = ActionType.create ∨ action.action = ActionType.update) →
        action.applicationName ∈ cfgApps.map (fun c => c.name) →
        GatewayCall.updateAppActiveVersion action.applicationName
            (env.assigned action.applicationName)
          ∈ (applyPlan env cfgApps actions st ⟨true⟩).1) := by
  constructor
  · intro env cfgApps actions st
    have hno : ∀ c ∈ (applyPlan env cfgApps actions st ⟨false⟩).1,
        c.isActivation = false := by
      intro c hc
      unfold applyPlan at hc
      by_cases hf : env.fails GatewayCall.listApplications
      · simp only [hf, if_true] at hc
        rcases List.mem_singleton.1 hc with rfl
        rfl
      · simp only [hf, Bool.false_eq_true, if_false] at hc
        rcases hrr : runApplyActions env (goMapOfList cfgApps (fun c => c.name))
            ⟨false⟩ actions st false with ⟨calls, st2, m2, err⟩
        simp only [hrr] at hc
        rcases List.mem_cons.1 hc with rfl | hc2
        · rfl
        · exact runApplyActions_no_activation env
            (goMapOfList cfgApps (fun c => c.name)) actions st false c
            (by simp only [hrr]; exact hc2)
    exact ⟨hno, fun pointers => runCallsOnPointers_id pointers _ hno⟩
  · intro env cfgApps actions st action herr hmem hact hname
    unfold applyPlan at herr ⊢
    by_cases hf : env.fails GatewayCall.listApplications
    · simp [hf] at herr
    · simp only [hf, Bool.false_eq_true, if_false] at herr ⊢
      rcases hrr : runApplyActions env (goMapOfList cfgApps (fun c => c.name))
          ⟨true⟩ actions st false with ⟨calls, st2, m2, err⟩
      simp only [hrr] at herr ⊢
      have hsome := goLookup_goMapOfList_isSome cfgApps (fun c => c.name)
        action.applicationName hname
      cases hlk : goLookup (goMapOfList cfgApps (fun c => c.name))
          action.applicationName with
      | none => rw [hlk] at hsome; simp at hsome
      | some appCfg =>
        have hkey : appCfg.name = action.applicationName :=
          goLookup_goMapOfList_key cfgApps (fun c => c.name)
            action.applicationName appCfg hlk
        have hmemcall := runApplyActions_activates env
          (goMapOfList cfgApps (fun c => c.name)) actions st false action appCfg
          (by simp only [hrr]; exact herr) hmem hact hlk
        rw [hrr] at hmemcall
        rw [hkey] at hmemcall
        exact List.mem_cons_of_mem _ hmemcall

/-- Witness for C9: applying a single Create action without activation
leaves the pointers untouched; with activation, the activation call for
the assigned version 1 is issued. -/
theorem C9_witness :
    runCallsOnPointers (fun _ => none)
        (applyPlan fixtureApplyEnv [⟨"web", fixtureSpecNewImage⟩]
          [⟨"web", ActionType.create, []⟩] State.new ⟨false⟩).1
      = (fun _ => none)
    ∧ GatewayCall.updateAppActiveVersion "web" 1
        ∈ (applyPlan fixtureApplyEnv [⟨"web", fixtureSpecNewImage⟩]
            [⟨"web", ActionType.create, []⟩] State.new ⟨true⟩).1 :=
  ⟨(C9_activation_only_when_requested.1 fixtureApplyEnv
      [⟨"web", fixtureSpecNewImage⟩] [⟨"web", ActionType.create, []⟩]
      State.new).2 (fun _ => none),
   C9_activation_only_when_requested.2 fixtureApplyEnv
      [⟨"web", fixtureSpecNewImage⟩] [⟨"web", ActionType.create, []⟩]
      State.new ⟨"web", ActionType.create, []⟩ (by rfl)
      (List.mem_singleton.2 rfl) (Or.inl rfl) (by simp)⟩

/-- C10: a plan action whose application name is not in the
configuration is skipped silently — Apply behaves exactly as if the
action were absent: same gateway calls, same ledger state, same
modified flag, same (success or error) result. -/
theorem C10_apply_skips_unconfigured_actions :
    ∀ (env : ApplyEnv) (cfgApps : List ApplicationConfig)
      (a : PlannedAction) (rest : List PlannedAction) (st : State)
      (opts : ApplyOptions),
      a.applicationName ∉ cfgApps.map (fun c => c.name) →
      applyPlan env cfgApps (a :: rest) st opts
        = applyPlan env cfgApps rest st opts := by
  intro env cfgApps a rest st opts h
  have hlk : goLookup (goMapOfList cfgApps (fun c => c.name))
      a.applicationName = none :=
    goLookup_goMapOfList_none cfgApps (fun c => c.name) a.applicationName h
  unfold applyPlan
  by_cases hf : env.fails GatewayCall.listApplications
  · simp [hf]
  · simp only [hf, Bool.false_eq_true, if_false]
    have hstep : runApplyActions env (goMapOfList cfgApps (fun c => c.name))
        opts (a :: rest) st false
        = runApplyActions env (goMapOfList cfgApps (fun c => c.name))
            opts rest st false := by
      conv_lhs => rw [runApplyActions]
      simp only [hlk]
    rw [hstep]

/-- Witness for C10: an action for an application missing from the
configuration changes nothing about the apply run. -/
theorem C10_witness :
    applyPlan fixtureApplyEnv [] [⟨"ghost", ActionType.create, []⟩]
        State.new ⟨false⟩
      = applyPlan fixtureApplyEnv [] [] State.new ⟨false⟩ :=
  C10_apply_skips_unconfigured_actions fixtureApplyEnv []
    ⟨"ghost", ActionType.create, []⟩ [] State.new ⟨false⟩ (by simp)

end AppRun
